import Mathlib

/-!
Shallow embedding of the `stpc` certificate toolkit (crates `stpc_core`,
`stpc_encoding`, `stpc_certs`, `stpc_crypto`, `stpc_time`) and proofs of the
specification claims about it.

Bytes are modelled as `Nat` values (`< 256` by construction or hypothesis),
byte strings as `List Nat`.  Rust `Result<T, StpcError>` becomes
`Except StpcError T`; operations that can panic (index out of bounds,
`Vec::remove` on an empty vector) return `Option (Except StpcError T)`,
where `none` models the panic.  Numeric casts (`as u32`, `as u64`) are
explicit `% 2^32` / `% 2^64`.
-/

namespace Stpc

/-- Error enum `StpcError` from `stpc_core/src/lib.rs`, carrying the exact
string payloads the source constructs. -/
inductive StpcError where
  | keyGenerationError (msg : String)
  | signatureComputingError (msg : String)
  | signatureVerifyError
  | timeServiceError (msg : String)
  | invalidPacketError (msg : String)
  | timeCertValidError (msg : String)
  | serilizateError (msg : String)
  | deserilizateError (msg : String)
deriving DecidableEq, Repr

deriving instance DecidableEq for Except

/-- Big-endian byte list of `n as u32` (`u32::to_be_bytes` applied to a
length cast with `as u32`, which truncates to the low 32 bits). -/
def be4bytes (n : Nat) : List Nat :=
  [n / 2 ^ 24 % 256, n / 2 ^ 16 % 256, n / 2 ^ 8 % 256, n % 256]

/-- Big-endian byte list of `n as u64` (`u64::to_be_bytes`). -/
def be8bytes (n : Nat) : List Nat :=
  [n / 2 ^ 56 % 256, n / 2 ^ 48 % 256, n / 2 ^ 40 % 256, n / 2 ^ 32 % 256,
   n / 2 ^ 24 % 256, n / 2 ^ 16 % 256, n / 2 ^ 8 % 256, n % 256]

/-- Value of the first four bytes of `l` read as a big-endian `u32`
(`u32::from_be_bytes`; callers establish that four bytes are present). -/
def be4val : List Nat → Nat
  | a :: b :: c :: d :: _ => ((a * 256 + b) * 256 + c) * 256 + d
  | _ => 0

/-- Value of the first eight bytes of `l` read as a big-endian `u64`
(`u64::from_be_bytes`; callers establish that eight bytes are present). -/
def be8val : List Nat → Nat
  | a :: b :: c :: d :: e :: f :: g :: h :: _ =>
      ((((((a * 256 + b) * 256 + c) * 256 + d) * 256 + e) * 256 + f) * 256 + g) * 256 + h
  | _ => 0

/-- Error message of the first and second `unpack` checks (the two share one
format string in the source). -/
def msgLenErr (n : Nat) : String :=
  "Message must be greater than 8 bytes, received: " ++ Nat.repr n

/-- Error message of the truncated-block-header check inside the `unpack`
scan loop (the format argument is the length of the whole message). -/
def blockHeaderErr (n : Nat) : String :=
  "Block must be greater than 5 bytes, received: " ++ Nat.repr n

/-- Error message of the block-length bounds check inside the `unpack` scan
loop: offset after the header, claimed length, bytes remaining. -/
def blockLenErr (off len rem : Nat) : String :=
  "Block at offset " ++ Nat.repr off ++ " claims length " ++ Nat.repr len ++
    ", but only " ++ Nat.repr rem ++ " bytes remain"

/-- Scan loop of `TLVParser::unpack` (`stpc_encoding/src/lib.rs`, lines
45-62).  The source walks an `offset` through `payload`; here `rem` is the
suffix `payload[offset..]`, so `offset + rem.length` equals the payload
length: `offset < payload.len()` is `rem ≠ []`, `offset + 5 > payload.len()`
is `rem.length < 5`, and the remaining byte count after the header,
`payload.len() - offset`, is `rem.length - 5`.  `msgLen` is the length of
the whole message, used only in the truncated-header error text. -/
def parseBlocks (msgLen : Nat) (offset : Nat) (rem : List Nat) :
    Except StpcError (List (Nat × List Nat)) :=
  match rem with
  | [] => .ok []
  | tag :: rest =>
    if rest.length + 1 < 5 then
      .error (.invalidPacketError (blockHeaderErr msgLen))
    else
      let length := be4val rest
      let body := rest.drop 4
      if length > body.length then
        .error (.invalidPacketError (blockLenErr (offset + 5) length body.length))
      else
        match parseBlocks msgLen (offset + 5 + length) (body.drop length) with
        | .error e => .error e
        | .ok blocks => .ok ((tag, body.take length) :: blocks)
termination_by rem.length
decreasing_by
  simp only [List.length_drop, List.length_cons]
  omega

/-- `TLVParser::unpack` (`stpc_encoding/src/lib.rs`, lines 34-65). -/
def unpack (message : List Nat) : Except StpcError (List (Nat × List Nat)) :=
  if message.length < 8 then
    .error (.invalidPacketError (msgLenErr message.length))
  else
    let total_len := be8val message
    if message.length - 8 < total_len then
      .error (.invalidPacketError (msgLenErr message.length))
    else
      parseBlocks message.length 0 ((message.drop 8).take total_len)

/-- Encoding of one block inside `TLVParser::pack`: tag byte, 4-byte
big-endian length (`len as u32`), value bytes. -/
def packBlock (b : Nat × List Nat) : List Nat :=
  b.1 :: (be4bytes b.2.length ++ b.2)

/-- `TLVParser::pack` (`stpc_encoding/src/lib.rs`, lines 17-32): the block
payload prefixed with its total length as an 8-byte big-endian `u64`
(`packet.len() as u64`).  The source never returns an error here. -/
def pack (blocks : List (Nat × List Nat)) : Except StpcError (List Nat) :=
  let packet := (blocks.map packBlock).flatten
  .ok (be8bytes packet.length ++ packet)

/-- Concatenated block payload built by `pack` before the length prefix. -/
def packPayload (blocks : List (Nat × List Nat)) : List Nat :=
  (blocks.map packBlock).flatten

theorem be4bytes_length (n : Nat) : (be4bytes n).length = 4 := rfl

theorem be8bytes_length (n : Nat) : (be8bytes n).length = 8 := rfl

theorem be4val_be4bytes (n : Nat) (r : List Nat) :
    be4val (be4bytes n ++ r) = n % 2 ^ 32 := by
  simp only [be4bytes, be4val, List.cons_append]
  omega

theorem be8val_be8bytes (n : Nat) (r : List Nat) :
    be8val (be8bytes n ++ r) = n % 2 ^ 64 := by
  simp only [be8bytes, be8val, List.cons_append]
  omega

theorem packPayload_cons (b : Nat × List Nat) (bs : List (Nat × List Nat)) :
    packPayload (b :: bs) = packBlock b ++ packPayload bs := by
  simp [packPayload]

theorem parseBlocks_packPayload (msgLen : Nat) :
    ∀ (bs : List (Nat × List Nat)) (offset : Nat),
      (∀ b ∈ bs, b.2.length < 2 ^ 32) →
      parseBlocks msgLen offset (packPayload bs) = .ok bs := by
  intro bs
  induction bs with
  | nil => intro offset _; simp [packPayload, parseBlocks]
  | cons b bs ih =>
    intro offset hlen
    obtain ⟨t, v⟩ := b
    have hv : v.length < 2 ^ 32 := hlen (t, v) (List.mem_cons_self _ _)
    rw [packPayload_cons]
    show parseBlocks msgLen offset
        (t :: (be4bytes v.length ++ (v ++ packPayload bs))) = _
    rw [parseBlocks]
    have hlen5 : ¬ ((be4bytes v.length ++ (v ++ packPayload bs)).length + 1 < 5) := by
      simp [be4bytes_length]
    simp only [hlen5, if_false]
    have hval : be4val (be4bytes v.length ++ (v ++ packPayload bs)) = v.length := by
      rw [be4val_be4bytes, Nat.mod_eq_of_lt hv]
    have hdrop : (be4bytes v.length ++ (v ++ packPayload bs)).drop 4 =
        v ++ packPayload bs := by
      have := List.drop_left (be4bytes v.length) (v ++ packPayload bs)
      rwa [be4bytes_length] at this
    simp only [hval, hdrop]
    have hnot : ¬ (v.length > (v ++ packPayload bs).length) := by
      simp [List.length_append]
    simp only [hnot, if_false]
    rw [List.drop_left' rfl, List.take_left' rfl]
    rw [ih (offset + 5 + v.length) (fun b hb => hlen b (List.mem_cons_of_mem _ hb))]

/-- Result bytes of `pack` (which never fails): the payload with its 8-byte
length prefix. -/
def encOf (bs : List (Nat × List Nat)) : List Nat :=
  be8bytes (packPayload bs).length ++ packPayload bs

theorem pack_eq (bs : List (Nat × List Nat)) : pack bs = .ok (encOf bs) := rfl

theorem encOf_length (bs : List (Nat × List Nat)) :
    (encOf bs).length = 8 + (packPayload bs).length := by
  rw [encOf, List.length_append, be8bytes_length]

theorem unpack_encOf (bs : List (Nat × List Nat))
    (hv : ∀ b ∈ bs, b.2.length < 2 ^ 32)
    (htot : (packPayload bs).length < 2 ^ 64) :
    unpack (encOf bs) = .ok bs := by
  have hmlen := encOf_length bs
  rw [unpack]
  have h8 : ¬ ((encOf bs).length < 8) := by rw [hmlen]; omega
  simp only [h8, if_false]
  rw [encOf]
  rw [be8val_be8bytes, Nat.mod_eq_of_lt htot]
  rw [← encOf]
  have h2 : ¬ ((encOf bs).length - 8 < (packPayload bs).length) := by
    rw [hmlen]; omega
  simp only [h2, if_false]
  have hdrop : (encOf bs).drop 8 = packPayload bs := by
    rw [encOf]
    have := List.drop_left (be8bytes (packPayload bs).length) (packPayload bs)
    rwa [be8bytes_length] at this
  rw [hdrop, List.take_length]
  exact parseBlocks_packPayload _ bs 0 hv

theorem unpack_pack (bs : List (Nat × List Nat))
    (hv : ∀ b ∈ bs, b.2.length < 2 ^ 32)
    (htot : (packPayload bs).length < 2 ^ 64) :
    ∃ m, pack bs = .ok m ∧ unpack m = .ok bs :=
  ⟨encOf bs, pack_eq bs, unpack_encOf bs hv htot⟩

/-- Blocks of the worked example in the spec and the encoding tests:
`[(1,"Hello!"),(2,"From!"),(3,"TLVParser!")]` as byte values. -/
def exampleBlocks : List (Nat × List Nat) :=
  [(1, [72, 101, 108, 108, 111, 33]),
   (2, [70, 114, 111, 109, 33]),
   (3, [84, 76, 86, 80, 97, 114, 115, 101, 114, 33])]

/-- Lower bound on the length of `Nat.toDigitsCore`: with at least one unit
of fuel it pushes at least one digit character. -/
theorem toDigitsCore_length_ge (b : Nat) :
    ∀ (f n : Nat) (l : List Char), 1 ≤ f →
      l.length + 1 ≤ (Nat.toDigitsCore b f n l).length := by
  intro f
  induction f with
  | zero => intro n l h; omega
  | succ f ih =>
    intro n l _
    rw [Nat.toDigitsCore]
    by_cases h : n / b = 0
    · simp [h]
    · simp only [h, if_false]
      rcases Nat.eq_zero_or_pos f with hf | hf
      · subst hf
        rw [Nat.toDigitsCore]
        simp
      · have := ih (n / b) (Nat.digitChar (n % b) :: l) hf
        simp only [List.length_cons] at this
        omega

/-- Decimal representation of a number at least 10 has at least two
characters. -/
theorem repr_length_ge_two (m : Nat) (h : 10 ≤ m) : 2 ≤ (Nat.repr m).length := by
  have h10 : ¬ (m / 10 = 0) := by
    intro hz
    have := Nat.div_eq_zero_iff (by omega : 0 < 10) |>.mp hz
    omega
  have hunfold : Nat.toDigitsCore 10 (m + 1) m [] =
      Nat.toDigitsCore 10 m (m / 10) [Nat.digitChar (m % 10)] := by
    rw [Nat.toDigitsCore]
    simp [h10]
  have hge := toDigitsCore_length_ge 10 m (m / 10) [Nat.digitChar (m % 10)] (by omega)
  simp only [List.length_cons, List.length_nil] at hge
  simp only [Nat.repr, Nat.toDigits, List.asString, String.length]
  rw [hunfold]
  exact hge

/-- Decimal representations of a number below 8 and a number at least 8 are
never equal. -/
theorem repr_lt8_ne_ge8 (a b : Nat) (ha : a < 8) (hb : 8 ≤ b) :
    Nat.repr a ≠ Nat.repr b := by
  by_cases hb10 : b < 10
  · interval_cases a <;> interval_cases b <;> decide
  · intro h
    have hlen := congrArg String.length h
    have h1 : (Nat.repr a).length = 1 := by interval_cases a <;> decide
    have h2 := repr_length_ge_two b (by omega)
    omega

/-- Error messages of the first `unpack` check (message length below 8) and
of the second (declared length too large, message length at least 8) never
coincide, because the rendered length is part of the message. -/
theorem msgLenErr_ne_on_violations (a b : Nat) (ha : a < 8) (hb : 8 ≤ b) :
    msgLenErr a ≠ msgLenErr b := by
  intro h
  apply repr_lt8_ne_ge8 a b ha hb
  have hd := congrArg String.data h
  simp only [msgLenErr, String.data_append] at hd
  exact String.ext (List.append_cancel_left hd)

theorem msgLenErr_ne_blockHeaderErr (a b : Nat) :
    msgLenErr a ≠ blockHeaderErr b := by
  intro h
  have hM : (msgLenErr a).data.head? = some 'M' := rfl
  have hB : (blockHeaderErr b).data.head? = some 'B' := rfl
  rw [h, hB] at hM
  exact absurd hM (by decide)

theorem msgLenErr_ne_blockLenErr (a b c d : Nat) :
    msgLenErr a ≠ blockLenErr b c d := by
  intro h
  have hM : (msgLenErr a).data.head? = some 'M' := rfl
  have hB : (blockLenErr b c d).data.head? = some 'B' := rfl
  rw [h, hB] at hM
  exact absurd hM (by decide)

theorem blockHeaderErr_ne_blockLenErr (a b c d : Nat) :
    blockHeaderErr a ≠ blockLenErr b c d := by
  intro h
  have hm : ((blockHeaderErr a).data.drop 6).head? = some 'm' := rfl
  have hat : ((blockLenErr b c d).data.drop 6).head? = some 'a' := rfl
  rw [h, hat] at hm
  exact absurd hm (by decide)

/-- C2: packing any sequence of `(tag, value)` blocks whose values are
shorter than `2^32` bytes and whose encoding length fits in a `u64`, then
unpacking, returns exactly the same pairs in the same order (no sorting, no
deduplication); the spec's `[(1,"Hello!"),(2,"From!"),(3,"TLVParser!")]`
example is the witness below. -/
theorem tlv_pack_unpack_id (bs : List (Nat × List Nat))
    (htag : ∀ b ∈ bs, b.1 < 256)
    (hval : ∀ b ∈ bs, b.2.length < 2 ^ 32)
    (htot : (packPayload bs).length < 2 ^ 64) :
    ∃ m, pack bs = .ok m ∧ unpack m = .ok bs :=
  unpack_pack bs hval htot

theorem tlv_pack_unpack_id_witness :
    ∃ m, pack exampleBlocks = .ok m ∧ unpack m = .ok exampleBlocks :=
  tlv_pack_unpack_id exampleBlocks (by decide) (by decide) (by decide)

/-- C3: `unpack` fails with an `InvalidPacket` error on each of the four
violations — input shorter than 8 bytes; declared total length exceeding
the bytes after the prefix; fewer than 5 payload bytes remaining for a
block header; a block length exceeding the remaining payload — and the
error values of the four violation classes are pairwise distinct. -/
theorem unpack_four_violations :
    (∀ msg : List Nat, msg.length < 8 →
        unpack msg = .error (.invalidPacketError (msgLenErr msg.length))) ∧
    (∀ msg : List Nat, 8 ≤ msg.length → msg.length - 8 < be8val msg →
        unpack msg = .error (.invalidPacketError (msgLenErr msg.length))) ∧
    (∀ (msgLen offset : Nat) (rem : List Nat), rem ≠ [] → rem.length < 5 →
        parseBlocks msgLen offset rem =
          .error (.invalidPacketError (blockHeaderErr msgLen))) ∧
    (∀ (msgLen offset tag : Nat) (rest : List Nat), 4 ≤ rest.length →
        (rest.drop 4).length < be4val rest →
        parseBlocks msgLen offset (tag :: rest) =
          .error (.invalidPacketError
            (blockLenErr (offset + 5) (be4val rest) ((rest.drop 4).length)))) ∧
    (∀ a b : Nat, a < 8 → 8 ≤ b → msgLenErr a ≠ msgLenErr b) ∧
    (∀ a b : Nat, msgLenErr a ≠ blockHeaderErr b) ∧
    (∀ a b c d : Nat, msgLenErr a ≠ blockLenErr b c d) ∧
    (∀ a b c d : Nat, blockHeaderErr a ≠ blockLenErr b c d) := by
  refine ⟨?_, ?_, ?_, ?_, msgLenErr_ne_on_violations,
    msgLenErr_ne_blockHeaderErr, msgLenErr_ne_blockLenErr,
    blockHeaderErr_ne_blockLenErr⟩
  · intro msg h
    rw [unpack]
    simp [h]
  · intro msg h1 h2
    rw [unpack]
    have h1' : ¬ (msg.length < 8) := by omega
    simp [h1', h2]
  · intro msgLen offset rem hne h5
    obtain ⟨t, rest, rfl⟩ := List.exists_cons_of_ne_nil hne
    rw [parseBlocks]
    have : rest.length + 1 < 5 := by
      simp only [List.length_cons] at h5
      omega
    simp [this]
  · intro msgLen offset tag rest h4 hlt
    rw [parseBlocks]
    have h5 : ¬ (rest.length + 1 < 5) := by omega
    simp only [h5, if_false]
    simp [hlt]
    intro hle
    simp only [List.length_drop] at hlt
    omega

theorem unpack_four_violations_witness :
    unpack [0, 0, 0] = .error (.invalidPacketError (msgLenErr 3)) ∧
    unpack [0, 0, 0, 0, 0, 0, 0, 1] =
      .error (.invalidPacketError (msgLenErr 8)) ∧
    parseBlocks 12 0 [1, 0, 0] =
      .error (.invalidPacketError (blockHeaderErr 12)) ∧
    parseBlocks 20 0 [5, 0, 0, 0, 9] =
      .error (.invalidPacketError (blockLenErr 5 9 0)) ∧
    msgLenErr 3 ≠ msgLenErr 9 ∧
    msgLenErr 3 ≠ blockHeaderErr 12 ∧
    msgLenErr 3 ≠ blockLenErr 5 9 0 ∧
    blockHeaderErr 12 ≠ blockLenErr 5 9 0 := by
  obtain ⟨p1, p2, p3, p4, p5, p6, p7, p8⟩ := unpack_four_violations
  exact ⟨p1 [0, 0, 0] (by decide),
    p2 [0, 0, 0, 0, 0, 0, 0, 1] (by decide) (by decide),
    p3 12 0 [1, 0, 0] (by decide) (by decide),
    p4 20 0 5 [0, 0, 0, 9] (by decide) (by decide),
    p5 3 9 (by decide) (by decide), p6 3 12, p7 3 5 9 0, p8 12 5 9 0⟩

/-! Certificate data model (`stpc_core`, `stpc_certs`).  Rust `String` is
modelled as its UTF-8 byte list (`List Nat`); `String::from_utf8` validity
is the `utf8Valid` check below.  Deserializers that can panic (`Vec::remove`
on an empty vector, `[0]` on an empty value) return `Option (Except ...)`,
with `none` for the panic. -/

/-- Enum `CertificateVersion` from `stpc_core`. -/
inductive CertificateVersion where
  | v1
deriving DecidableEq, Repr

/-- Enum `SignatureAlgorithm` from `stpc_core`. -/
inductive SignatureAlgorithm where
  | ed25519
  | falcon512
  | falcon1024
deriving DecidableEq, Repr

/-- Wire code of `CertificateVersion` (`V1 => 1`). -/
def versionCode : CertificateVersion → Nat
  | .v1 => 1

/-- Wire code of `SignatureAlgorithm` (`Ed25519 => 1, Falcon512 => 2,
Falcon1024 => 3`). -/
def sigAlgCode : SignatureAlgorithm → Nat
  | .ed25519 => 1
  | .falcon512 => 2
  | .falcon1024 => 3

/-- Continuation byte of a UTF-8 sequence (`0x80..0xBF`). -/
def utf8Cont (b : Nat) : Bool := 128 ≤ b && b < 192

/-- Modelled from the Rust standard library: the validity check performed by
`String::from_utf8`, per RFC 3629 (well-formed UTF-8, shortest forms only,
no surrogates, code points at most `U+10FFFF`). -/
def utf8Valid : List Nat → Bool
  | [] => true
  | b :: rest =>
    if b < 128 then utf8Valid rest
    else if 194 ≤ b && b ≤ 223 then
      match rest with
      | c1 :: r => utf8Cont c1 && utf8Valid r
      | [] => false
    else if 224 ≤ b && b ≤ 239 then
      match rest with
      | c1 :: c2 :: r =>
          (if b = 224 then 160 ≤ c1 && c1 ≤ 191
           else if b = 237 then 128 ≤ c1 && c1 ≤ 159
           else utf8Cont c1) && utf8Cont c2 && utf8Valid r
      | _ => false
    else if 240 ≤ b && b ≤ 244 then
      match rest with
      | c1 :: c2 :: c3 :: r =>
          (if b = 240 then 144 ≤ c1 && c1 ≤ 191
           else if b = 244 then 128 ≤ c1 && c1 ≤ 143
           else utf8Cont c1) && utf8Cont c2 && utf8Cont c3 && utf8Valid r
      | _ => false
    else false

/-- Result of a Rust function returning `Result<α, StpcError>` that can also
panic: `none` is the panic, `some` the returned `Result`. -/
def PRes (α : Type) : Type := Option (Except StpcError α)

/-- Normal return. -/
def pok {α : Type} (a : α) : PRes α := some (.ok a)

/-- Error return. -/
def perr {α : Type} (e : StpcError) : PRes α := some (.error e)

/-- Panic. -/
def ppanic {α : Type} : PRes α := none

/-- Sequencing that propagates panics and errors (models `?` plus the
possibility of a panic in the first operand). -/
def pbind {α β : Type} (x : PRes α) (f : α → PRes β) : PRes β :=
  match x with
  | none => none
  | some (.error e) => some (.error e)
  | some (.ok a) => f a

/-- Lift an ordinary `Result` into `PRes` (models `?` on a call that cannot
panic). -/
def plift {α : Type} (x : Except StpcError α) : PRes α := some x

/-- `Vec::remove(0)`: panics on an empty vector, otherwise yields the first
element and the rest. -/
def premove0 {α : Type} (l : List α) : PRes (α × List α) :=
  match l with
  | [] => ppanic
  | x :: xs => pok (x, xs)

/-- Indexing `v[0]`: panics on an empty vector. -/
def pindex0 (l : List Nat) : PRes Nat :=
  match l with
  | [] => ppanic
  | x :: _ => pok x

/-- Struct `Validity` from `stpc_certs` (`u64` seconds, so values below
`2^64`). -/
structure Validity where
  not_before : Nat
  not_after : Nat
deriving DecidableEq, Repr

/-- Blocks built by `Validity::serialize`: tag 1 is `not_after`, tag 2 is
`not_before`, both as 8-byte big-endian. -/
def validityBlocks (v : Validity) : List (Nat × List Nat) :=
  [(1, be8bytes v.not_after), (2, be8bytes v.not_before)]

/-- `Validity::serialize` (`stpc_certs/src/lib.rs`, lines 60-72). -/
def Validity.serialize (v : Validity) : Except StpcError (List Nat) :=
  pack (validityBlocks v)

/-- `Validity::deserialize` (`stpc_certs/src/lib.rs`, lines 74-100):
`blocks.remove(0)` panics when fewer than two blocks are present; the
`try_into` to `[u8; 8]` demands exactly 8 value bytes. -/
def Validity.deserialize (data : List Nat) : PRes Validity :=
  pbind (plift (unpack data)) fun blocks =>
  pbind (premove0 blocks) fun p1 =>
  pbind (if p1.1.1 ≠ 1 then perr (.deserilizateError "Tag not_after != 1")
         else if p1.1.2.length ≠ 8 then perr (.deserilizateError "Invalid not_after length")
         else pok (be8val p1.1.2)) fun not_after =>
  pbind (premove0 p1.2) fun p2 =>
  pbind (if p2.1.1 ≠ 2 then perr (.deserilizateError "Tag not_before != 2")
         else if p2.1.2.length ≠ 8 then perr (.deserilizateError "Invalid not_before length")
         else pok (be8val p2.1.2)) fun not_before =>
  pok { not_before := not_before, not_after := not_after }

/-- `Validity::check_validity` (`stpc_certs/src/lib.rs`, lines 108-116). -/
def Validity.check_validity (v : Validity) (now : Nat) : Except StpcError Bool :=
  if v.not_before ≤ now ∧ now ≤ v.not_after then
    .ok true
  else
    .error (.timeCertValidError "Certificate expired/didn't start acting")

/-- Struct `DistinguishedName` from `stpc_certs`; strings as UTF-8 byte
lists. -/
structure DistinguishedName where
  common_name : List Nat
  organization : Option (List Nat)
  department : Option (List Nat)
  country : Option (List Nat)
  state : Option (List Nat)
  locality : Option (List Nat)
  email_address : Option (List Nat)
deriving DecidableEq, Repr

/-- Optional block: present with the given tag exactly when the field is
set. -/
def optBlock (tag : Nat) : Option (List Nat) → List (Nat × List Nat)
  | some v => [(tag, v)]
  | none => []

/-- Blocks built by `DistinguishedName::serialize`, in push order: tag 1
required, tags 2-7 only when set. -/
def dnBlocks (dn : DistinguishedName) : List (Nat × List Nat) :=
  [(1, dn.common_name)] ++ optBlock 2 dn.organization ++ optBlock 3 dn.department ++
    optBlock 4 dn.country ++ optBlock 5 dn.state ++ optBlock 6 dn.locality ++
    optBlock 7 dn.email_address

/-- `DistinguishedName::serialize` (`stpc_certs/src/lib.rs`, lines
144-173). -/
def DistinguishedName.serialize (dn : DistinguishedName) : Except StpcError (List Nat) :=
  pack (dnBlocks dn)

/-- One iteration of the `for (tag, value) in blocks` loop in
`DistinguishedName::deserialize`: assignment by tag, unknown tags leave the
accumulator unchanged. -/
def dnApply (dn : DistinguishedName) (tag : Nat) (s : List Nat) : DistinguishedName :=
  if tag = 1 then { dn with common_name := s }
  else if tag = 2 then { dn with organization := some s }
  else if tag = 3 then { dn with department := some s }
  else if tag = 4 then { dn with country := some s }
  else if tag = 5 then { dn with state := some s }
  else if tag = 6 then { dn with locality := some s }
  else if tag = 7 then { dn with email_address := some s }
  else dn

/-- Block loop of `DistinguishedName::deserialize`: every block's value goes
through `String::from_utf8` before the tag dispatch, so invalid UTF-8 in any
block (known tag or not) aborts with an error. -/
def dnLoop (dn : DistinguishedName) : List (Nat × List Nat) → Except StpcError DistinguishedName
  | [] => .ok dn
  | (tag, value) :: rest =>
    if utf8Valid value then dnLoop (dnApply dn tag value) rest
    else .error (.deserilizateError "Invalid UTF-8 in DistinguishedName")

/-- Initial accumulator of `DistinguishedName::deserialize`: empty
`common_name`, all optional fields `None`. -/
def dnInit : DistinguishedName :=
  { common_name := [], organization := none, department := none, country := none,
    state := none, locality := none, email_address := none }

/-- `DistinguishedName::deserialize` (`stpc_certs/src/lib.rs`, lines
175-205); this one cannot panic. -/
def DistinguishedName.deserialize (data : List Nat) : Except StpcError DistinguishedName :=
  match unpack data with
  | .error e => .error e
  | .ok blocks => dnLoop dnInit blocks

/-- Struct `TbsCertificate` from `stpc_certs` (`serial_number` is
`[u8; 8]`). -/
structure TbsCertificate where
  version : CertificateVersion
  serial_number : List Nat
  signature_algorithm : SignatureAlgorithm
  issuser : DistinguishedName
  validity : Validity
  subject : DistinguishedName
  subject_public_key : List Nat
  ocsp_url : List Nat
deriving DecidableEq, Repr

/-- Blocks built by `TbsCertificate::serialize`, tags 1-8 in push order;
nested structures are their own full encodings. -/
def tbsBlocks (t : TbsCertificate) : List (Nat × List Nat) :=
  [(1, [versionCode t.version]), (2, t.serial_number),
   (3, [sigAlgCode t.signature_algorithm]), (4, encOf (dnBlocks t.issuser)),
   (5, encOf (validityBlocks t.validity)), (6, encOf (dnBlocks t.subject)),
   (7, t.subject_public_key), (8, t.ocsp_url)]

/-- `TbsCertificate::serialize` (`stpc_certs/src/lib.rs`, lines 237-267);
the nested `serialize` calls cannot fail, so this is `pack` of
`tbsBlocks`. -/
def TbsCertificate.serialize (t : TbsCertificate) : Except StpcError (List Nat) :=
  pack (tbsBlocks t)

/-- `TbsCertificate::deserialize` (`stpc_certs/src/lib.rs`, lines 269-312).
Fields are consumed positionally with `blocks.remove(0)` (panics when the
block runs out) and the 1-byte enum reads use `[0]` (panics on an empty
value); tags are never checked here. -/
def TbsCertificate.deserialize (data : List Nat) : PRes TbsCertificate :=
  pbind (plift (unpack data)) fun blocks =>
  pbind (premove0 blocks) fun p1 =>
  pbind (pindex0 p1.1.2) fun vb =>
  pbind (if vb = 1 then pok CertificateVersion.v1
         else perr (.deserilizateError "Unknown certificate version")) fun version =>
  pbind (premove0 p1.2) fun p2 =>
  pbind (if p2.1.2.length = 8 then pok p2.1.2
         else perr (.deserilizateError "Invalid serial_number length")) fun serial_number =>
  pbind (premove0 p2.2) fun p3 =>
  pbind (pindex0 p3.1.2) fun ab =>
  pbind (if ab = 1 then pok SignatureAlgorithm.ed25519
         else if ab = 2 then pok SignatureAlgorithm.falcon512
         else if ab = 3 then pok SignatureAlgorithm.falcon1024
         else perr (.deserilizateError "Unknown signature algorithm")) fun signature_algorithm =>
  pbind (premove0 p3.2) fun p4 =>
  pbind (plift (DistinguishedName.deserialize p4.1.2)) fun issuser =>
  pbind (premove0 p4.2) fun p5 =>
  pbind (Validity.deserialize p5.1.2) fun validity =>
  pbind (premove0 p5.2) fun p6 =>
  pbind (plift (DistinguishedName.deserialize p6.1.2)) fun subject =>
  pbind (premove0 p6.2) fun p7 =>
  pbind (premove0 p7.2) fun p8 =>
  pbind (if utf8Valid p8.1.2 then pok p8.1.2
         else perr (.deserilizateError "Invalid UTF-8 in ocsp_url")) fun ocsp_url =>
  pok { version := version, serial_number := serial_number,
        signature_algorithm := signature_algorithm, issuser := issuser,
        validity := validity, subject := subject,
        subject_public_key := p7.1.2, ocsp_url := ocsp_url }

/-- Struct `Certificate` from `stpc_certs`. -/
structure Certificate where
  tbs_certificate : TbsCertificate
  signature_algorithm : SignatureAlgorithm
  signature_value : List Nat
deriving DecidableEq, Repr

/-- Blocks built by `Certificate::serialize`: tag 1 the encoded TBS, tag 2
the algorithm code, tag 3 the signature bytes. -/
def certBlocks (c : Certificate) : List (Nat × List Nat) :=
  [(1, encOf (tbsBlocks c.tbs_certificate)), (2, [sigAlgCode c.signature_algorithm]),
   (3, c.signature_value)]

/-- `Certificate::serialize` (`stpc_certs/src/lib.rs`, lines 332-356). -/
def Certificate.serialize (c : Certificate) : Except StpcError (List Nat) :=
  pack (certBlocks c)

/-- `Certificate::deserialize` (`stpc_certs/src/lib.rs`, lines 358-377);
positional `blocks.remove(0)` and `[0]` as in `TbsCertificate`. -/
def Certificate.deserialize (data : List Nat) : PRes Certificate :=
  pbind (plift (unpack data)) fun blocks =>
  pbind (premove0 blocks) fun p1 =>
  pbind (TbsCertificate.deserialize p1.1.2) fun tbs_certificate =>
  pbind (premove0 p1.2) fun p2 =>
  pbind (pindex0 p2.1.2) fun ab =>
  pbind (if ab = 1 then pok SignatureAlgorithm.ed25519
         else if ab = 2 then pok SignatureAlgorithm.falcon512
         else if ab = 3 then pok SignatureAlgorithm.falcon1024
         else perr (.deserilizateError "Unknown signature algorithm")) fun signature_algorithm =>
  pbind (premove0 p2.2) fun p3 =>
  pok { tbs_certificate := tbs_certificate, signature_algorithm := signature_algorithm,
        signature_value := p3.1.2 }

/-- C4: `check_validity(now)` succeeds (with `true`) exactly when
`not_before ≤ now ≤ not_after` and otherwise returns the single shared
`TimeCertValidity` error; the spec's `not_before=0, not_after=1000` examples
are the witness below. -/
theorem check_validity_window (v : Validity) (now : Nat) :
    (v.not_before ≤ now ∧ now ≤ v.not_after → v.check_validity now = .ok true) ∧
    (¬ (v.not_before ≤ now ∧ now ≤ v.not_after) →
      v.check_validity now =
        .error (.timeCertValidError "Certificate expired/didn't start acting")) := by
  constructor
  · intro h
    rw [Validity.check_validity, if_pos h]
  · intro h
    rw [Validity.check_validity, if_neg h]

theorem check_validity_window_witness :
    Validity.check_validity ⟨0, 1000⟩ 500 = .ok true ∧
    Validity.check_validity ⟨0, 1000⟩ 1001 =
      .error (.timeCertValidError "Certificate expired/didn't start acting") :=
  ⟨(check_validity_window ⟨0, 1000⟩ 500).1 (by decide),
   (check_validity_window ⟨0, 1000⟩ 1001).2 (by decide)⟩

theorem unpack_zeros8 : unpack [0, 0, 0, 0, 0, 0, 0, 0] = .ok [] := by
  rw [unpack]
  norm_num [be8val]
  rw [parseBlocks]

/-- C6 fails on the code: on the 8-zero-byte message — a well-formed TLV
envelope with an empty block list — `TbsCertificate::deserialize` and
`Certificate::deserialize` call `blocks.remove(0)` on an empty vector and
panic (modelled as `ppanic`, i.e. `none`) instead of returning an error. -/
theorem deserialize_panics_on_empty_block_list :
    TbsCertificate.deserialize (List.replicate 8 0) = ppanic ∧
    Certificate.deserialize (List.replicate 8 0) = ppanic := by
  constructor
  · rw [TbsCertificate.deserialize]
    simp [unpack_zeros8, pbind, plift, premove0, ppanic]
  · rw [Certificate.deserialize]
    simp [unpack_zeros8, pbind, plift, premove0, ppanic]

/-- Value of the last block carrying tag `t`, `none` when no block does:
when the tail holds such a block the tail's last one wins, otherwise the
head counts if its tag matches. -/
def lastWithTag (t : Nat) : List (Nat × List Nat) → Option (List Nat)
  | [] => none
  | b :: bs => (lastWithTag t bs).elim (if b.1 = t then some b.2 else none) some

theorem dnLoop_ok (d : DistinguishedName) (bs : List (Nat × List Nat))
    (h : ∀ b ∈ bs, utf8Valid b.2 = true) :
    dnLoop d bs = .ok (bs.foldl (fun a b => dnApply a b.1 b.2) d) := by
  induction bs generalizing d with
  | nil => rfl
  | cons b rest ih =>
    obtain ⟨t, v⟩ := b
    rw [dnLoop]
    rw [if_pos (h (t, v) (List.mem_cons_self _ _))]
    exact ih _ (fun b hb => h b (List.mem_cons_of_mem _ hb))

theorem dnApply_common_name (d : DistinguishedName) (t : Nat) (v : List Nat) :
    (dnApply d t v).common_name = if t = 1 then v else d.common_name := by
  simp only [dnApply, apply_ite DistinguishedName.common_name]
  by_cases h : t = 1 <;> simp [h]

theorem dnApply_organization (d : DistinguishedName) (t : Nat) (v : List Nat) :
    (dnApply d t v).organization = if t = 2 then some v else d.organization := by
  simp only [dnApply, apply_ite DistinguishedName.organization]
  by_cases h1 : t = 1 <;> by_cases h2 : t = 2 <;> simp [h1, h2] <;> omega

theorem dnApply_department (d : DistinguishedName) (t : Nat) (v : List Nat) :
    (dnApply d t v).department = if t = 3 then some v else d.department := by
  simp only [dnApply, apply_ite DistinguishedName.department]
  by_cases h1 : t = 1 <;> by_cases h2 : t = 2 <;> by_cases h3 : t = 3 <;>
    simp [h1, h2, h3] <;> omega

theorem dnApply_country (d : DistinguishedName) (t : Nat) (v : List Nat) :
    (dnApply d t v).country = if t = 4 then some v else d.country := by
  simp only [dnApply, apply_ite DistinguishedName.country]
  by_cases h1 : t = 1 <;> by_cases h2 : t = 2 <;> by_cases h3 : t = 3 <;>
    by_cases h4 : t = 4 <;> simp [h1, h2, h3, h4] <;> omega

theorem dnApply_state (d : DistinguishedName) (t : Nat) (v : List Nat) :
    (dnApply d t v).state = if t = 5 then some v else d.state := by
  simp only [dnApply, apply_ite DistinguishedName.state]
  by_cases h1 : t = 1 <;> by_cases h2 : t = 2 <;> by_cases h3 : t = 3 <;>
    by_cases h4 : t = 4 <;> by_cases h5 : t = 5 <;> simp [h1, h2, h3, h4, h5] <;> omega

theorem dnApply_locality (d : DistinguishedName) (t : Nat) (v : List Nat) :
    (dnApply d t v).locality = if t = 6 then some v else d.locality := by
  simp only [dnApply, apply_ite DistinguishedName.locality]
  by_cases h1 : t = 1 <;> by_cases h2 : t = 2 <;> by_cases h3 : t = 3 <;>
    by_cases h4 : t = 4 <;> by_cases h5 : t = 5 <;> by_cases h6 : t = 6 <;>
    simp [h1, h2, h3, h4, h5, h6] <;> omega

theorem dnApply_email_address (d : DistinguishedName) (t : Nat) (v : List Nat) :
    (dnApply d t v).email_address = if t = 7 then some v else d.email_address := by
  simp only [dnApply, apply_ite DistinguishedName.email_address]
  by_cases h1 : t = 1 <;> by_cases h2 : t = 2 <;> by_cases h3 : t = 3 <;>
    by_cases h4 : t = 4 <;> by_cases h5 : t = 5 <;> by_cases h6 : t = 6 <;>
    by_cases h7 : t = 7 <;> simp [h1, h2, h3, h4, h5, h6, h7] <;> omega

theorem lastWithTag_cons (t : Nat) (b : Nat × List Nat) (bs : List (Nat × List Nat)) :
    lastWithTag t (b :: bs) =
      ((lastWithTag t bs).elim (if b.1 = t then some b.2 else none) some) := rfl

/-- Abbreviation for the fold the block loop performs. -/
def dnFold (d : DistinguishedName) (bs : List (Nat × List Nat)) : DistinguishedName :=
  bs.foldl (fun a b => dnApply a b.1 b.2) d

theorem dnFold_common_name (bs : List (Nat × List Nat)) :
    ∀ d : DistinguishedName,
      (dnFold d bs).common_name = (lastWithTag 1 bs).getD d.common_name := by
  induction bs with
  | nil => intro d; rfl
  | cons b rest ih =>
    intro d
    rw [show dnFold d (b :: rest) = dnFold (dnApply d b.1 b.2) rest from rfl]
    rw [ih, lastWithTag_cons]
    cases hl : lastWithTag 1 rest with
    | some x => rfl
    | none =>
      simp only [Option.elim, Option.getD]
      rw [dnApply_common_name]
      by_cases h : b.1 = 1 <;> simp [h]

/-- Optional fields of the fold: parameterized over the projection and its
tag. -/
theorem dnFold_optField (proj : DistinguishedName → Option (List Nat)) (t : Nat)
    (hproj : ∀ (d : DistinguishedName) (t' : Nat) (v : List Nat),
      proj (dnApply d t' v) = if t' = t then some v else proj d)
    (bs : List (Nat × List Nat)) :
    ∀ d : DistinguishedName,
      proj (dnFold d bs) = (lastWithTag t bs).elim (proj d) some := by
  induction bs with
  | nil => intro d; rfl
  | cons b rest ih =>
    intro d
    rw [show dnFold d (b :: rest) = dnFold (dnApply d b.1 b.2) rest from rfl]
    rw [ih, lastWithTag_cons]
    cases hl : lastWithTag t rest with
    | some x => rfl
    | none =>
      simp only [Option.elim]
      rw [hproj]
      by_cases h : b.1 = t <;> simp [h]

theorem option_elim_none_some {α : Type} (o : Option α) :
    o.elim (none : Option α) some = o := by
  cases o <;> rfl

/-- C7 counterexample: the packed message for blocks `(1,"a")` then
`(1,"b")` — duplicate tag 1 — deserializes with `common_name = "b"` (the
last block), not `"a"` (the first block), so first-writer-wins is false. -/
theorem dn_first_writer_wins_counterexample :
    pack [(1, [97]), (1, [98])] =
      .ok [0, 0, 0, 0, 0, 0, 0, 12, 1, 0, 0, 0, 1, 97, 1, 0, 0, 0, 1, 98] ∧
    DistinguishedName.deserialize
        [0, 0, 0, 0, 0, 0, 0, 12, 1, 0, 0, 0, 1, 97, 1, 0, 0, 0, 1, 98] =
      .ok { dnInit with common_name := [98] } ∧
    DistinguishedName.deserialize
        [0, 0, 0, 0, 0, 0, 0, 12, 1, 0, 0, 0, 1, 97, 1, 0, 0, 0, 1, 98] ≠
      .ok { dnInit with common_name := [97] } := by
  have henc : encOf [(1, [97]), (1, [98])] =
      [0, 0, 0, 0, 0, 0, 0, 12, 1, 0, 0, 0, 1, 97, 1, 0, 0, 0, 1, 98] := by decide
  have hunp := unpack_encOf [(1, [97]), (1, [98])] (by decide) (by decide)
  rw [henc] at hunp
  refine ⟨by rw [pack_eq, henc], ?_, ?_⟩
  · rw [DistinguishedName.deserialize, hunp]
    show dnLoop dnInit [(1, [97]), (1, [98])] = _
    decide
  · rw [DistinguishedName.deserialize, hunp]
    show dnLoop dnInit [(1, [97]), (1, [98])] ≠ _
    decide

/-- C7 amended: `DistinguishedName::deserialize` on a well-formed TLV input
whose block values are all valid UTF-8 assigns each field from the last
block carrying its tag (last-writer-wins); blocks with tags outside 1-7
set no field. -/
theorem dn_deserialize_last_writer_wins (msg : List Nat) (bs : List (Nat × List Nat))
    (hunp : unpack msg = .ok bs) (hv : ∀ b ∈ bs, utf8Valid b.2 = true) :
    DistinguishedName.deserialize msg =
      .ok { common_name := (lastWithTag 1 bs).getD [],
            organization := lastWithTag 2 bs,
            department := lastWithTag 3 bs,
            country := lastWithTag 4 bs,
            state := lastWithTag 5 bs,
            locality := lastWithTag 6 bs,
            email_address := lastWithTag 7 bs } := by
  rw [DistinguishedName.deserialize, hunp]
  show dnLoop dnInit bs = _
  rw [dnLoop_ok _ _ hv]
  refine congrArg Except.ok ?_
  have heta : dnFold dnInit bs =
      ⟨(dnFold dnInit bs).common_name, (dnFold dnInit bs).organization,
       (dnFold dnInit bs).department, (dnFold dnInit bs).country,
       (dnFold dnInit bs).state, (dnFold dnInit bs).locality,
       (dnFold dnInit bs).email_address⟩ := rfl
  show dnFold dnInit bs = _
  rw [heta]
  rw [dnFold_common_name bs dnInit]
  rw [dnFold_optField DistinguishedName.organization 2 dnApply_organization bs dnInit]
  rw [dnFold_optField DistinguishedName.department 3 dnApply_department bs dnInit]
  rw [dnFold_optField DistinguishedName.country 4 dnApply_country bs dnInit]
  rw [dnFold_optField DistinguishedName.state 5 dnApply_state bs dnInit]
  rw [dnFold_optField DistinguishedName.locality 6 dnApply_locality bs dnInit]
  rw [dnFold_optField DistinguishedName.email_address 7 dnApply_email_address bs dnInit]
  show DistinguishedName.mk _ _ _ _ _ _ _ = _
  rw [show dnInit.organization = none from rfl, show dnInit.department = none from rfl,
    show dnInit.country = none from rfl, show dnInit.state = none from rfl,
    show dnInit.locality = none from rfl, show dnInit.email_address = none from rfl]
  rw [option_elim_none_some, option_elim_none_some, option_elim_none_some,
    option_elim_none_some, option_elim_none_some, option_elim_none_some]
  rfl

theorem dn_deserialize_last_writer_wins_witness :
    DistinguishedName.deserialize
        [0, 0, 0, 0, 0, 0, 0, 12, 9, 0, 0, 0, 1, 97, 2, 0, 0, 0, 1, 98] =
      .ok { dnInit with organization := some [98] } := by
  have henc : encOf [(9, [97]), (2, [98])] =
      [0, 0, 0, 0, 0, 0, 0, 12, 9, 0, 0, 0, 1, 97, 2, 0, 0, 0, 1, 98] := by decide
  have hunp := unpack_encOf [(9, [97]), (2, [98])] (by decide) (by decide)
  rw [henc] at hunp
  have h := dn_deserialize_last_writer_wins _ _ hunp (by decide)
  rw [h]
  rfl

theorem dnLoop_err (d : DistinguishedName) (bs : List (Nat × List Nat))
    (h : ∃ b ∈ bs, utf8Valid b.2 = false) :
    dnLoop d bs = .error (.deserilizateError "Invalid UTF-8 in DistinguishedName") := by
  induction bs generalizing d with
  | nil => obtain ⟨b, hb, _⟩ := h; cases hb
  | cons b rest ih =>
    obtain ⟨t, v⟩ := b
    rw [dnLoop]
    by_cases hv : utf8Valid v = true
    · rw [if_pos hv]
      apply ih
      obtain ⟨b, hb, hbv⟩ := h
      rcases List.mem_cons.mp hb with rfl | hb
      · rw [hv] at hbv; cases hbv
      · exact ⟨b, hb, hbv⟩
    · rw [if_neg hv]

theorem lastWithTag_eq_none (t : Nat) (bs : List (Nat × List Nat))
    (h : ∀ b ∈ bs, b.1 ≠ t) : lastWithTag t bs = none := by
  induction bs with
  | nil => rfl
  | cons b rest ih =>
    rw [lastWithTag_cons, ih (fun b hb => h b (List.mem_cons_of_mem _ hb))]
    simp [h b (List.mem_cons_self _ _)]

/-- C5 counterexample: the 8-zero-byte message is a well-formed TLV packet
with no blocks at all, so the required `common_name` (tag 1) is missing;
`DistinguishedName::deserialize` succeeds with the defaulted empty string
instead of returning a decode error. -/
theorem missing_required_field_counterexample :
    DistinguishedName.deserialize [0, 0, 0, 0, 0, 0, 0, 0] = .ok dnInit ∧
    dnInit.common_name = [] ∧
    (∀ e, DistinguishedName.deserialize [0, 0, 0, 0, 0, 0, 0, 0] ≠ .error e) := by
  refine ⟨?_, rfl, ?_⟩
  · rw [DistinguishedName.deserialize, unpack_zeros8]
    rfl
  · intro e
    rw [DistinguishedName.deserialize, unpack_zeros8]
    exact fun h => Except.noConfusion h

/-- C5 amended: unrecognized enum codes (certificate version, signature
algorithm) and invalid UTF-8 in a string field (`DistinguishedName`
strings, `ocsp_url`) fail with a decode error naming the offending item;
but a missing required field is not detected — `DistinguishedName` leaves
it defaulted (see the counterexample) and `TbsCertificate::deserialize`
panics when the block list runs out. -/
theorem decode_error_cases :
    (∀ (msg : List Nat) (bs : List (Nat × List Nat)), unpack msg = .ok bs →
      (∃ b ∈ bs, utf8Valid b.2 = false) →
      DistinguishedName.deserialize msg =
        .error (.deserilizateError "Invalid UTF-8 in DistinguishedName")) ∧
    (∀ (msg : List Nat) (t vb : Nat) (vrest : List Nat)
        (brest : List (Nat × List Nat)),
      unpack msg = .ok ((t, vb :: vrest) :: brest) → vb ≠ 1 →
      TbsCertificate.deserialize msg =
        perr (.deserilizateError "Unknown certificate version")) ∧
    (∀ (msg : List Nat) (t1 t2 t3 ab : Nat) (v1rest serial arest : List Nat)
        (brest : List (Nat × List Nat)),
      unpack msg = .ok ((t1, 1 :: v1rest) :: (t2, serial) :: (t3, ab :: arest) :: brest) →
      serial.length = 8 → ab ≠ 1 → ab ≠ 2 → ab ≠ 3 →
      TbsCertificate.deserialize msg =
        perr (.deserilizateError "Unknown signature algorithm")) ∧
    (∀ (msg : List Nat) (t1 t2 t3 t4 t5 t6 t7 t8 : Nat)
        (v1rest serial a3rest iss val sub pk url : List Nat)
        (dnI dnS : DistinguishedName) (vV : Validity),
      unpack msg = .ok [(t1, 1 :: v1rest), (t2, serial), (t3, 1 :: a3rest),
        (t4, iss), (t5, val), (t6, sub), (t7, pk), (t8, url)] →
      serial.length = 8 →
      DistinguishedName.deserialize iss = .ok dnI →
      Validity.deserialize val = pok vV →
      DistinguishedName.deserialize sub = .ok dnS →
      utf8Valid url = false →
      TbsCertificate.deserialize msg =
        perr (.deserilizateError "Invalid UTF-8 in ocsp_url")) ∧
    (∀ (msg : List Nat) (bs : List (Nat × List Nat)), unpack msg = .ok bs →
      (∀ b ∈ bs, b.1 ≠ 1 ∧ utf8Valid b.2 = true) →
      ∃ dn, DistinguishedName.deserialize msg = .ok dn ∧ dn.common_name = []) ∧
    (∀ msg : List Nat, unpack msg = .ok [] →
      TbsCertificate.deserialize msg = ppanic) := by
  refine ⟨?_, ?_, ?_, ?_, ?_, ?_⟩
  · intro msg bs hunp hbad
    rw [DistinguishedName.deserialize, hunp]
    show dnLoop dnInit bs = _
    exact dnLoop_err dnInit bs hbad
  · intro msg t vb vrest brest hunp hvb
    rw [TbsCertificate.deserialize, hunp]
    simp [pbind, plift, premove0, pindex0, pok, perr, hvb]
  · intro msg t1 t2 t3 ab v1rest serial arest brest hunp hser h1 h2 h3
    rw [TbsCertificate.deserialize, hunp]
    simp [pbind, plift, premove0, pindex0, pok, perr, hser, h1, h2, h3]
  · intro msg t1 t2 t3 t4 t5 t6 t7 t8 v1rest serial a3rest iss val sub pk url
      dnI dnS vV hunp hser hiss hval hsub hurl
    rw [TbsCertificate.deserialize, hunp]
    simp [pbind, plift, premove0, pindex0, pok, perr, hser, hiss, hval, hsub, hurl]
  · intro msg bs hunp hall
    refine ⟨dnFold dnInit bs, ?_, ?_⟩
    · rw [DistinguishedName.deserialize, hunp]
      show dnLoop dnInit bs = _
      exact dnLoop_ok dnInit bs (fun b hb => (hall b hb).2)
    · show (dnFold dnInit bs).common_name = []
      rw [dnFold_common_name bs dnInit,
        lastWithTag_eq_none 1 bs (fun b hb => (hall b hb).1)]
      rfl
  · intro msg hunp
    rw [TbsCertificate.deserialize, hunp]
    simp [pbind, plift, premove0, ppanic]

theorem decode_error_cases_witness :
    DistinguishedName.deserialize (encOf [(1, [255])]) =
      .error (.deserilizateError "Invalid UTF-8 in DistinguishedName") ∧
    TbsCertificate.deserialize (encOf [(9, [7])]) =
      perr (.deserilizateError "Unknown certificate version") ∧
    TbsCertificate.deserialize
        (encOf [(1, [1]), (2, [0, 0, 0, 0, 0, 0, 0, 0]), (3, [9])]) =
      perr (.deserilizateError "Unknown signature algorithm") ∧
    TbsCertificate.deserialize
        (encOf [(1, [1]), (2, [0, 0, 0, 0, 0, 0, 0, 0]), (3, [1]),
          (4, encOf [(1, [])]), (5, encOf (validityBlocks ⟨0, 0⟩)),
          (6, encOf [(1, [])]), (7, []), (8, [255])]) =
      perr (.deserilizateError "Invalid UTF-8 in ocsp_url") ∧
    (∃ dn, DistinguishedName.deserialize (encOf [(2, [97])]) = .ok dn ∧
      dn.common_name = []) ∧
    TbsCertificate.deserialize [0, 0, 0, 0, 0, 0, 0, 0] = ppanic := by
  obtain ⟨p1, p2, p3, p4, p5, p6⟩ := decode_error_cases
  refine ⟨?_, ?_, ?_, ?_, ?_, ?_⟩
  · exact p1 _ [(1, [255])] (unpack_encOf _ (by decide) (by decide)) (by decide)
  · exact p2 _ 9 7 [] [] (unpack_encOf _ (by decide) (by decide)) (by decide)
  · exact p3 _ 1 2 3 9 [] [0, 0, 0, 0, 0, 0, 0, 0] [] []
      (unpack_encOf _ (by decide) (by decide)) (by decide)
      (by decide) (by decide) (by decide)
  · refine p4 _ 1 2 3 4 5 6 7 8 [] [0, 0, 0, 0, 0, 0, 0, 0] []
      (encOf [(1, [])]) (encOf (validityBlocks ⟨0, 0⟩)) (encOf [(1, [])]) [] [255]
      dnInit dnInit ⟨0, 0⟩
      (unpack_encOf _ (by decide) (by decide)) (by decide) ?_ ?_ ?_ (by decide)
    · rw [DistinguishedName.deserialize, unpack_encOf [(1, [])] (by decide) (by decide)]
      rfl
    · rw [Validity.deserialize, unpack_encOf (validityBlocks ⟨0, 0⟩) (by decide) (by decide)]
      rfl
    · rw [DistinguishedName.deserialize, unpack_encOf [(1, [])] (by decide) (by decide)]
      rfl
  · exact p5 _ [(2, [97])] (unpack_encOf _ (by decide) (by decide)) (by decide)
  · exact p6 _ unpack_zeros8

/-! Signature subsystem (`stpc_crypto`).  The cryptographic primitives live
in the external crates `ed25519_dalek` and `pqcrypto_falcon`; they are
abstracted as boolean-valued parameters, while every length check, error
constructor and branch of the repository's own code is modelled exactly. -/

/-- `Ed25519::verify` (`stpc_crypto/src/lib.rs`, lines 62-84): the public
key must convert to `[u8; 32]`, then parse (`VerifyingKey::from_bytes`,
abstracted as `keyValid`); the signature must convert to `[u8; 64]`
(`EdSignature::from_bytes` itself is infallible); finally the curve check
(abstracted as `sigOk`) decides between `Ok(true)` and
`SignatureVerifyError`. -/
def ed25519Verify (keyValid : List Nat → Bool)
    (sigOk : List Nat → List Nat → List Nat → Bool)
    (message public_key signature : List Nat) : Except StpcError Bool :=
  if public_key.length ≠ 32 then
    .error (.keyGenerationError "Public key must be 32 bytes")
  else if ¬ keyValid public_key then
    .error (.keyGenerationError "Invalid public key bytes")
  else if signature.length ≠ 64 then
    .error .signatureVerifyError
  else if sigOk message public_key signature then
    .ok true
  else
    .error .signatureVerifyError

/-- `Falcon512::verify` (`stpc_crypto/src/lib.rs`, lines 112-125): key and
signature parsing are delegated to the library (abstracted as `keyParse`
and `sigParse`), then the lattice check (`sigOk`). -/
def falcon512Verify (keyParse sigParse : List Nat → Bool)
    (sigOk : List Nat → List Nat → List Nat → Bool)
    (message public_key signature : List Nat) : Except StpcError Bool :=
  if ¬ keyParse public_key then
    .error (.keyGenerationError "Invalid Falcon512 public key")
  else if ¬ sigParse signature then
    .error .signatureVerifyError
  else if sigOk message public_key signature then
    .ok true
  else
    .error .signatureVerifyError

/-- `Falcon1024::verify` (`stpc_crypto/src/lib.rs`, lines 151-165). -/
def falcon1024Verify (keyParse sigParse : List Nat → Bool)
    (sigOk : List Nat → List Nat → List Nat → Bool)
    (message public_key signature : List Nat) : Except StpcError Bool :=
  if ¬ keyParse public_key then
    .error (.keyGenerationError "Invalid Falcon1024 public key")
  else if ¬ sigParse signature then
    .error .signatureVerifyError
  else if sigOk message public_key signature then
    .ok true
  else
    .error .signatureVerifyError

/-- C8 counterexample: `Ed25519::verify` with an empty (hence not 32-byte)
public key returns `KeyGenerationError("Public key must be 32 bytes")`,
which differs from `SignatureVerifyError` — so a malformed public key is
not reported through the single SignatureVerification error kind and is
distinguishable by the caller. -/
theorem ed25519_pubkey_error_counterexample :
    ed25519Verify (fun _ => true) (fun _ _ _ => false) [] [] [] =
      .error (.keyGenerationError "Public key must be 32 bytes") ∧
    StpcError.keyGenerationError "Public key must be 32 bytes" ≠
      .signatureVerifyError := by
  constructor
  · rfl
  · intro h; cases h

/-- C8 amended: a cryptographically invalid signature and a wrong-length
signature both yield the indistinguishable `SignatureVerifyError`, but a
malformed public key (wrong length or invalid bytes) yields a
`KeyGenerationError`, which the caller can distinguish. -/
theorem ed25519_verify_error_kinds (kv : List Nat → Bool)
    (sv : List Nat → List Nat → List Nat → Bool) (m pk sig : List Nat) :
    (pk.length = 32 → kv pk = true → sig.length ≠ 64 →
      ed25519Verify kv sv m pk sig = .error .signatureVerifyError) ∧
    (pk.length = 32 → kv pk = true → sig.length = 64 → sv m pk sig = false →
      ed25519Verify kv sv m pk sig = .error .signatureVerifyError) ∧
    (pk.length ≠ 32 →
      ed25519Verify kv sv m pk sig =
        .error (.keyGenerationError "Public key must be 32 bytes")) ∧
    (pk.length = 32 → kv pk = false →
      ed25519Verify kv sv m pk sig =
        .error (.keyGenerationError "Invalid public key bytes")) ∧
    (∀ s, StpcError.keyGenerationError s ≠ .signatureVerifyError) := by
  refine ⟨?_, ?_, ?_, ?_, fun s h => StpcError.noConfusion h⟩
  · intro h32 hkv h64
    simp [ed25519Verify, h32, hkv, h64]
  · intro h32 hkv h64 hsv
    simp [ed25519Verify, h32, hkv, h64, hsv]
  · intro h32
    simp [ed25519Verify, h32]
  · intro h32 hkv
    simp [ed25519Verify, h32, hkv]

theorem ed25519_verify_error_kinds_witness :
    ed25519Verify (fun _ => true) (fun _ _ _ => false) []
        (List.replicate 32 0) [] = .error .signatureVerifyError ∧
    ed25519Verify (fun _ => true) (fun _ _ _ => false) []
        (List.replicate 32 0) (List.replicate 64 0) = .error .signatureVerifyError ∧
    ed25519Verify (fun _ => true) (fun _ _ _ => false) [] [] [] =
      .error (.keyGenerationError "Public key must be 32 bytes") ∧
    ed25519Verify (fun _ => false) (fun _ _ _ => false) []
        (List.replicate 32 0) [] = .error (.keyGenerationError "Invalid public key bytes") ∧
    StpcError.keyGenerationError "x" ≠ .signatureVerifyError := by
  obtain ⟨p1, p2, p3, p4, p5⟩ :=
    ed25519_verify_error_kinds (fun _ => true) (fun _ _ _ => false) []
      (List.replicate 32 0) []
  refine ⟨p1 (by decide) (by decide) (by decide), ?_, ?_, ?_, p5 "x"⟩
  · exact (ed25519_verify_error_kinds (fun _ => true) (fun _ _ _ => false) []
      (List.replicate 32 0) (List.replicate 64 0)).2.1 (by decide) (by decide)
      (by decide) (by decide)
  · exact (ed25519_verify_error_kinds (fun _ => true) (fun _ _ _ => false) []
      [] []).2.2.1 (by decide)
  · exact (ed25519_verify_error_kinds (fun _ => false) (fun _ _ _ => false) []
      (List.replicate 32 0) []).2.2.2.1 (by decide) (by decide)

/-- C10: none of the three `verify` implementations can return `Ok(false)`:
a successful return always carries `true`, so rejection only ever travels
through the error channel. -/
theorem verify_never_ok_false :
    (∀ (kv : List Nat → Bool) (sv : List Nat → List Nat → List Nat → Bool)
        (m pk sig : List Nat) (b : Bool),
      ed25519Verify kv sv m pk sig = .ok b → b = true) ∧
    (∀ (kp sp : List Nat → Bool) (so : List Nat → List Nat → List Nat → Bool)
        (m pk sig : List Nat) (b : Bool),
      falcon512Verify kp sp so m pk sig = .ok b → b = true) ∧
    (∀ (kp sp : List Nat → Bool) (so : List Nat → List Nat → List Nat → Bool)
        (m pk sig : List Nat) (b : Bool),
      falcon1024Verify kp sp so m pk sig = .ok b → b = true) := by
  refine ⟨?_, ?_, ?_⟩
  · intro kv sv m pk sig b h
    rw [ed25519Verify] at h
    split_ifs at h <;> simp_all
  · intro kp sp so m pk sig b h
    rw [falcon512Verify] at h
    split_ifs at h <;> simp_all
  · intro kp sp so m pk sig b h
    rw [falcon1024Verify] at h
    split_ifs at h <;> simp_all

theorem verify_never_ok_false_witness :
    (ed25519Verify (fun _ => true) (fun _ _ _ => true) []
        (List.replicate 32 0) (List.replicate 64 0) = .ok true ∧ true = true) ∧
    (falcon512Verify (fun _ => true) (fun _ => true) (fun _ _ _ => true)
        [] [] [] = .ok true ∧ true = true) ∧
    (falcon1024Verify (fun _ => true) (fun _ => true) (fun _ _ _ => true)
        [] [] [] = .ok true ∧ true = true) := by
  obtain ⟨p1, p2, p3⟩ := verify_never_ok_false
  refine ⟨⟨by decide, ?_⟩, ⟨by decide, ?_⟩, ⟨by decide, ?_⟩⟩
  · exact p1 (fun _ => true) (fun _ _ _ => true) []
      (List.replicate 32 0) (List.replicate 64 0) true (by decide)
  · exact p2 (fun _ => true) (fun _ => true) (fun _ _ _ => true) [] [] [] true (by decide)
  · exact p3 (fun _ => true) (fun _ => true) (fun _ _ _ => true) [] [] [] true (by decide)

/-! Time Authority (`stpc_time`, `stpc_core`).  The network transaction
itself is the external `ntp::request`; it is abstracted as a function from
server to `Except String Nat` giving the reported `transmit_time.sec`
(seconds since the 1900 epoch) or the transport error text. -/

/-- Enum `NtpServers` from `stpc_core`. -/
inductive NtpServers where
  | timeGoogleCom
  | poolNtpOrg
  | timeWindowsCom
  | timeAppleCom
  | timeCloudflareCom
deriving DecidableEq, Repr

/-- `NtpServers::address` (`stpc_core/src/lib.rs`, lines 49-57). -/
def NtpServers.address : NtpServers → String
  | .timeGoogleCom => "time.google.com:123"
  | .poolNtpOrg => "pool.ntp.org:123"
  | .timeWindowsCom => "time.windows.com:123"
  | .timeAppleCom => "time.apple.com:123"
  | .timeCloudflareCom => "time.cloudflare.com:123"

/-- `NtpServers::all` (`stpc_core/src/lib.rs`, lines 59-67): the fixed
catalog order. -/
def NtpServers.all : List NtpServers :=
  [.timeGoogleCom, .poolNtpOrg, .timeWindowsCom, .timeAppleCom, .timeCloudflareCom]

/-- `TimeManager::try_fetch_ntp` (`stpc_time/src/lib.rs`, lines 99-105):
one request to one server; on success the seconds-since-1900 value is
converted to Unix time with the wrapping `u64` subtraction
`sec as u64 - 2_208_988_800`. -/
def try_fetch_ntp (net : NtpServers → Except String Nat) (server : NtpServers) :
    Except StpcError Nat :=
  match net server with
  | .error e => .error (.timeServiceError ("Error for request to server: " ++ e))
  | .ok sec => .ok ((sec + (2 ^ 64 - 2208988800)) % 2 ^ 64)

/-- The `for` loop of `TimeManager::fetch_ntp`: first success wins,
failures fall through to the next server. -/
def fetchLoop (net : NtpServers → Except String Nat) :
    List NtpServers → Option Nat
  | [] => none
  | s :: rest =>
    match try_fetch_ntp net s with
    | .ok time => some time
    | .error _ => fetchLoop net rest

/-- `TimeManager::fetch_ntp` (`stpc_time/src/lib.rs`, lines 88-97). -/
def fetch_ntp (net : NtpServers → Except String Nat) : Option Nat :=
  fetchLoop net NtpServers.all

/-- C9: the fetch tries the five catalog servers in their fixed order,
returns the first success converted to Unix time by subtracting
2,208,988,800, and yields `none` when every server fails. -/
theorem fetch_ntp_policy :
    NtpServers.all = [.timeGoogleCom, .poolNtpOrg, .timeWindowsCom,
      .timeAppleCom, .timeCloudflareCom] ∧
    (∀ net : NtpServers → Except String Nat,
      (∀ s, ∃ e, net s = .error e) → fetch_ntp net = none) ∧
    (∀ (net : NtpServers → Except String Nat) (i : Nat)
        (hi : i < NtpServers.all.length) (sec : Nat),
      net (NtpServers.all.get ⟨i, hi⟩) = .ok sec →
      (∀ j, j < i → ∃ e, ∀ hj : j < NtpServers.all.length,
        net (NtpServers.all.get ⟨j, hj⟩) = .error e) →
      2208988800 ≤ sec → sec < 2 ^ 64 →
      fetch_ntp net = some (sec - 2208988800)) := by
  refine ⟨rfl, ?_, ?_⟩
  · intro net h
    obtain ⟨e1, h1⟩ := h .timeGoogleCom
    obtain ⟨e2, h2⟩ := h .poolNtpOrg
    obtain ⟨e3, h3⟩ := h .timeWindowsCom
    obtain ⟨e4, h4⟩ := h .timeAppleCom
    obtain ⟨e5, h5⟩ := h .timeCloudflareCom
    simp [fetch_ntp, NtpServers.all, fetchLoop, try_fetch_ntp, h1, h2, h3, h4, h5]
  · intro net i hi sec hok hfail hlo hhi
    simp only [NtpServers.all, List.length_cons, List.length_nil] at hi
    interval_cases i
    · simp only [NtpServers.all, List.get] at hok
      simp [fetch_ntp, NtpServers.all, fetchLoop, try_fetch_ntp, hok]
      omega
    · obtain ⟨e1, h1⟩ := hfail 0 (by omega)
      simp only [NtpServers.all, List.get] at hok h1
      simp [fetch_ntp, NtpServers.all, fetchLoop, try_fetch_ntp,
        hok, h1 (by simp [NtpServers.all])]
      omega
    · obtain ⟨e1, h1⟩ := hfail 0 (by omega)
      obtain ⟨e2, h2⟩ := hfail 1 (by omega)
      simp only [NtpServers.all, List.get] at hok h1 h2
      simp [fetch_ntp, NtpServers.all, fetchLoop, try_fetch_ntp, hok,
        h1 (by simp [NtpServers.all]), h2 (by simp [NtpServers.all])]
      omega
    · obtain ⟨e1, h1⟩ := hfail 0 (by omega)
      obtain ⟨e2, h2⟩ := hfail 1 (by omega)
      obtain ⟨e3, h3⟩ := hfail 2 (by omega)
      simp only [NtpServers.all, List.get] at hok h1 h2 h3
      simp [fetch_ntp, NtpServers.all, fetchLoop, try_fetch_ntp, hok,
        h1 (by simp [NtpServers.all]), h2 (by simp [NtpServers.all]),
        h3 (by simp [NtpServers.all])]
      omega
    · obtain ⟨e1, h1⟩ := hfail 0 (by omega)
      obtain ⟨e2, h2⟩ := hfail 1 (by omega)
      obtain ⟨e3, h3⟩ := hfail 2 (by omega)
      obtain ⟨e4, h4⟩ := hfail 3 (by omega)
      simp only [NtpServers.all, List.get] at hok h1 h2 h3 h4
      simp [fetch_ntp, NtpServers.all, fetchLoop, try_fetch_ntp, hok,
        h1 (by simp [NtpServers.all]), h2 (by simp [NtpServers.all]),
        h3 (by simp [NtpServers.all]), h4 (by simp [NtpServers.all])]
      omega

theorem fetch_ntp_policy_witness :
    fetch_ntp (fun _ => .error "down") = none ∧
    fetch_ntp (fun s => match s with
      | .poolNtpOrg => .ok 3900000000
      | _ => .error "down") = some 1691011200 := by
  obtain ⟨_, p2, p3⟩ := fetch_ntp_policy
  constructor
  · exact p2 _ (fun s => ⟨"down", rfl⟩)
  · have h := p3 (fun s => match s with
      | .poolNtpOrg => .ok 3900000000
      | _ => .error "down") 1 (by decide) 3900000000 rfl
      (by
        intro j hj
        interval_cases j
        exact ⟨"down", fun hj2 => rfl⟩)
      (by decide) (by decide)
    simpa using h

/-! Round-trip (claim C1).  Well-formedness of a value collects the typing
facts of the Rust structs (`u64` fields below `2^64`, `[u8; 8]` of length
8), UTF-8 validity of strings, and the length bounds under which `pack`'s
`as u32` length casts are lossless — including the bound on each nested
encoding, which the original claim omits and whose necessity the
counterexample below establishes. -/

theorem be8val_be8bytes_self (n : Nat) : be8val (be8bytes n) = n % 2 ^ 64 := by
  have h := be8val_be8bytes n []
  rwa [List.append_nil] at h

theorem packPayload_length (bs : List (Nat × List Nat)) :
    (packPayload bs).length = (bs.map (fun b => 5 + b.2.length)).sum := by
  induction bs with
  | nil => rfl
  | cons b rest ih =>
    rw [packPayload_cons, List.length_append, ih, List.map_cons, List.sum_cons]
    simp [packBlock, be4bytes]
    omega

/-- Typing and size facts for a `Validity` (`u64` fields). -/
def validityWf (v : Validity) : Prop :=
  v.not_before < 2 ^ 64 ∧ v.not_after < 2 ^ 64

theorem validity_roundtrip (v : Validity) (h : validityWf v) :
    Validity.deserialize (encOf (validityBlocks v)) = pok v := by
  obtain ⟨h1, h2⟩ := h
  have hv : ∀ b ∈ validityBlocks v, b.2.length < 2 ^ 32 := by
    intro b hb
    simp only [validityBlocks, List.mem_cons, List.not_mem_nil, or_false] at hb
    rcases hb with rfl | rfl <;> simp [be8bytes]
  have ht : (packPayload (validityBlocks v)).length < 2 ^ 64 := by
    simp [packPayload_length, validityBlocks, be8bytes]
  have hunp := unpack_encOf _ hv ht
  rw [Validity.deserialize, hunp]
  simp only [validityBlocks, pbind, plift, premove0, pok, perr, be8bytes_length,
    be8val_be8bytes_self]
  norm_num
  rw [Nat.mod_eq_of_lt (show v.not_before < 18446744073709551616 from h1),
    Nat.mod_eq_of_lt (show v.not_after < 18446744073709551616 from h2)]

/-- Typing and size facts for one string field: valid UTF-8 (a Rust
`String` invariant) and length below `2^32` (lossless `as u32` length). -/
def strOk (s : List Nat) : Prop := utf8Valid s = true ∧ s.length < 2 ^ 32

/-- `strOk` for an optional string field, vacuous when unset. -/
def optStrOk : Option (List Nat) → Prop
  | none => True
  | some s => strOk s

/-- Typing and size facts for a `DistinguishedName`. -/
def dnWf (dn : DistinguishedName) : Prop :=
  strOk dn.common_name ∧ optStrOk dn.organization ∧ optStrOk dn.department ∧
    optStrOk dn.country ∧ optStrOk dn.state ∧ optStrOk dn.locality ∧
    optStrOk dn.email_address

theorem mem_optBlock {b : Nat × List Nat} {t : Nat} {o : Option (List Nat)}
    (h : b ∈ optBlock t o) : ∃ s, o = some s ∧ b = (t, s) := by
  cases o with
  | none => cases h
  | some s =>
    simp only [optBlock, List.mem_cons, List.not_mem_nil, or_false] at h
    exact ⟨s, rfl, h⟩

theorem forall_mem_dnBlocks (P : Nat × List Nat → Prop) (dn : DistinguishedName)
    (h1 : P (1, dn.common_name))
    (h2 : ∀ s, dn.organization = some s → P (2, s))
    (h3 : ∀ s, dn.department = some s → P (3, s))
    (h4 : ∀ s, dn.country = some s → P (4, s))
    (h5 : ∀ s, dn.state = some s → P (5, s))
    (h6 : ∀ s, dn.locality = some s → P (6, s))
    (h7 : ∀ s, dn.email_address = some s → P (7, s)) :
    ∀ b ∈ dnBlocks dn, P b := by
  intro b hb
  simp only [dnBlocks, List.mem_append, List.mem_cons, List.not_mem_nil,
    or_false] at hb
  rcases hb with ((((((rfl | hb) | hb) | hb) | hb) | hb) | hb)
  · exact h1
  · obtain ⟨s, hs, rfl⟩ := mem_optBlock hb; exact h2 s hs
  · obtain ⟨s, hs, rfl⟩ := mem_optBlock hb; exact h3 s hs
  · obtain ⟨s, hs, rfl⟩ := mem_optBlock hb; exact h4 s hs
  · obtain ⟨s, hs, rfl⟩ := mem_optBlock hb; exact h5 s hs
  · obtain ⟨s, hs, rfl⟩ := mem_optBlock hb; exact h6 s hs
  · obtain ⟨s, hs, rfl⟩ := mem_optBlock hb; exact h7 s hs

theorem optBlock_length_le (t : Nat) (o : Option (List Nat)) :
    (optBlock t o).length ≤ 1 := by
  cases o <;> simp [optBlock]

theorem dnBlocks_length_le (dn : DistinguishedName) : (dnBlocks dn).length ≤ 7 := by
  have g2 := optBlock_length_le 2 dn.organization
  have g3 := optBlock_length_le 3 dn.department
  have g4 := optBlock_length_le 4 dn.country
  have g5 := optBlock_length_le 5 dn.state
  have g6 := optBlock_length_le 6 dn.locality
  have g7 := optBlock_length_le 7 dn.email_address
  simp only [dnBlocks, List.length_append, List.length_cons, List.length_nil]
  omega

theorem packPayload_length_bound (bs : List (Nat × List Nat))
    (h : ∀ b ∈ bs, b.2.length < 2 ^ 32) :
    (packPayload bs).length ≤ bs.length * (5 + 2 ^ 32) := by
  induction bs with
  | nil => simp [packPayload]
  | cons b rest ih =>
    rw [packPayload_cons, List.length_append]
    have hhd : b.2.length < 2 ^ 32 := h b (List.mem_cons_self _ _)
    have hrest := ih (fun b hb => h b (List.mem_cons_of_mem _ hb))
    have hpb : (packBlock b).length = 5 + b.2.length := by
      simp [packBlock, be4bytes]
      omega
    rw [hpb, List.length_cons]
    have hmul : (rest.length + 1) * (5 + 2 ^ 32) =
        rest.length * (5 + 2 ^ 32) + (5 + 2 ^ 32) := by ring
    omega

/-- Folding the blocks a `DistinguishedName` serializes to reconstructs the
value exactly (each tag occurs at most once, in tag order). -/
theorem dnFold_dnBlocks (dn : DistinguishedName) : dnFold dnInit (dnBlocks dn) = dn := by
  obtain ⟨cn, org, dep, cty, st, loc, em⟩ := dn
  cases org <;> cases dep <;> cases cty <;> cases st <;> cases loc <;> cases em <;> rfl

theorem dn_roundtrip (dn : DistinguishedName) (h : dnWf dn) :
    DistinguishedName.deserialize (encOf (dnBlocks dn)) = .ok dn := by
  obtain ⟨hcn, ho2, ho3, ho4, ho5, ho6, ho7⟩ := h
  have hv : ∀ b ∈ dnBlocks dn, b.2.length < 2 ^ 32 :=
    forall_mem_dnBlocks (fun b => b.2.length < 2 ^ 32) dn hcn.2
      (fun s hs => by rw [hs] at ho2; exact ho2.2)
      (fun s hs => by rw [hs] at ho3; exact ho3.2)
      (fun s hs => by rw [hs] at ho4; exact ho4.2)
      (fun s hs => by rw [hs] at ho5; exact ho5.2)
      (fun s hs => by rw [hs] at ho6; exact ho6.2)
      (fun s hs => by rw [hs] at ho7; exact ho7.2)
  have hutf : ∀ b ∈ dnBlocks dn, utf8Valid b.2 = true :=
    forall_mem_dnBlocks (fun b => utf8Valid b.2 = true) dn hcn.1
      (fun s hs => by rw [hs] at ho2; exact ho2.1)
      (fun s hs => by rw [hs] at ho3; exact ho3.1)
      (fun s hs => by rw [hs] at ho4; exact ho4.1)
      (fun s hs => by rw [hs] at ho5; exact ho5.1)
      (fun s hs => by rw [hs] at ho6; exact ho6.1)
      (fun s hs => by rw [hs] at ho7; exact ho7.1)
  have ht : (packPayload (dnBlocks dn)).length < 2 ^ 64 := by
    have hb := packPayload_length_bound _ hv
    have hl := dnBlocks_length_le dn
    have hm : (dnBlocks dn).length * (5 + 2 ^ 32) ≤ 7 * (5 + 2 ^ 32) :=
      Nat.mul_le_mul_right _ hl
    omega
  have hunp := unpack_encOf _ hv ht
  rw [DistinguishedName.deserialize, hunp]
  show dnLoop dnInit (dnBlocks dn) = _
  rw [dnLoop_ok _ _ hutf]
  show Except.ok (dnFold dnInit (dnBlocks dn)) = _
  rw [dnFold_dnBlocks]

/-- Typing and size facts for a `TbsCertificate`: the `[u8; 8]` serial,
well-formed components, `u32`-safe lengths for the byte and string fields,
and `u32`-safe lengths for the two nested name encodings. -/
def tbsWf (t : TbsCertificate) : Prop :=
  t.serial_number.length = 8 ∧ dnWf t.issuser ∧ validityWf t.validity ∧
    dnWf t.subject ∧ t.subject_public_key.length < 2 ^ 32 ∧ strOk t.ocsp_url ∧
    (encOf (dnBlocks t.issuser)).length < 2 ^ 32 ∧
    (encOf (dnBlocks t.subject)).length < 2 ^ 32

theorem encOf_validityBlocks_length (v : Validity) :
    (encOf (validityBlocks v)).length = 34 := by
  simp [encOf_length, packPayload_length, validityBlocks, be8bytes]

theorem tbs_roundtrip (t : TbsCertificate) (h : tbsWf t) :
    TbsCertificate.deserialize (encOf (tbsBlocks t)) = pok t := by
  obtain ⟨hser, hiss, hval, hsub, hpk, hurl, hie, hse⟩ := h
  have hv : ∀ b ∈ tbsBlocks t, b.2.length < 2 ^ 32 := by
    intro b hb
    simp only [tbsBlocks, List.mem_cons, List.not_mem_nil, or_false] at hb
    rcases hb with rfl | rfl | rfl | rfl | rfl | rfl | rfl | rfl
    · norm_num
    · rw [hser]; norm_num
    · norm_num
    · exact hie
    · rw [encOf_validityBlocks_length]; norm_num
    · exact hse
    · exact hpk
    · exact hurl.2
  have ht : (packPayload (tbsBlocks t)).length < 2 ^ 64 := by
    rw [packPayload_length]
    simp only [tbsBlocks, List.map_cons, List.map_nil, List.sum_cons,
      List.sum_nil, List.length_cons, List.length_nil]
    have h5 := encOf_validityBlocks_length t.validity
    have h2 := hser
    have h8 := hurl.2
    omega
  have hunp := unpack_encOf _ hv ht
  rw [TbsCertificate.deserialize, hunp]
  have hd1 := dn_roundtrip t.issuser hiss
  have hd2 := dn_roundtrip t.subject hsub
  have hv1 := validity_roundtrip t.validity hval
  obtain ⟨ver, serial, alg, iss, val, sub, pk, url⟩ := t
  simp only at hd1 hd2 hv1 hser hurl
  cases ver <;> cases alg <;>
    simp [tbsBlocks, pbind, plift, premove0, pindex0, pok, perr, versionCode,
      sigAlgCode, hser, hd1, hd2, hv1, hurl.1]

/-- Typing and size facts for a `Certificate`, including the `u32`-safe
length of the nested TBS encoding. -/
def certWf (c : Certificate) : Prop :=
  tbsWf c.tbs_certificate ∧ c.signature_value.length < 2 ^ 32 ∧
    (encOf (tbsBlocks c.tbs_certificate)).length < 2 ^ 32

theorem cert_roundtrip (c : Certificate) (h : certWf c) :
    Certificate.deserialize (encOf (certBlocks c)) = pok c := by
  obtain ⟨htbs, hsig, hte⟩ := h
  have hv : ∀ b ∈ certBlocks c, b.2.length < 2 ^ 32 := by
    intro b hb
    simp only [certBlocks, List.mem_cons, List.not_mem_nil, or_false] at hb
    rcases hb with rfl | rfl | rfl
    · exact hte
    · norm_num
    · exact hsig
  have ht : (packPayload (certBlocks c)).length < 2 ^ 64 := by
    rw [packPayload_length]
    simp only [certBlocks, List.map_cons, List.map_nil, List.sum_cons,
      List.sum_nil, List.length_cons, List.length_nil]
    omega
  have hunp := unpack_encOf _ hv ht
  rw [Certificate.deserialize, hunp]
  have htr := tbs_roundtrip c.tbs_certificate htbs
  obtain ⟨tbs, alg, sig⟩ := c
  simp only at htr
  cases alg <;>
    simp [certBlocks, pbind, plift, premove0, pindex0, pok, perr, sigAlgCode, htr]

/-- C1 amended: serialize-then-deserialize is the identity for `Validity`,
`DistinguishedName`, `TbsCertificate` and `Certificate` values whose string
fields are valid UTF-8 and whose variable-length fields AND nested
encodings (issuer/subject name blobs, the TBS blob) are each shorter than
`2^32` bytes — the latter bound being the extra hypothesis the
counterexample shows is needed. -/
theorem cert_model_roundtrip :
    (∀ v : Validity, validityWf v →
      ∃ m, v.serialize = .ok m ∧ Validity.deserialize m = pok v) ∧
    (∀ dn : DistinguishedName, dnWf dn →
      ∃ m, dn.serialize = .ok m ∧ DistinguishedName.deserialize m = .ok dn) ∧
    (∀ t : TbsCertificate, tbsWf t →
      ∃ m, t.serialize = .ok m ∧ TbsCertificate.deserialize m = pok t) ∧
    (∀ c : Certificate, certWf c →
      ∃ m, c.serialize = .ok m ∧ Certificate.deserialize m = pok c) := by
  refine ⟨?_, ?_, ?_, ?_⟩
  · intro v h
    exact ⟨encOf (validityBlocks v), rfl, validity_roundtrip v h⟩
  · intro dn h
    exact ⟨encOf (dnBlocks dn), rfl, dn_roundtrip dn h⟩
  · intro t h
    exact ⟨encOf (tbsBlocks t), rfl, tbs_roundtrip t h⟩
  · intro c h
    exact ⟨encOf (certBlocks c), rfl, cert_roundtrip c h⟩

/-- Sample `DistinguishedName` ("CN", organization "Org") for the round-trip
witness. -/
def wDN : DistinguishedName :=
  { common_name := [67, 78], organization := some [79, 114, 103],
    department := none, country := none, state := none, locality := none,
    email_address := none }

/-- Sample `TbsCertificate` for the round-trip witness. -/
def wTbs : TbsCertificate :=
  { version := .v1, serial_number := [1, 2, 3, 4, 5, 6, 7, 8],
    signature_algorithm := .falcon512, issuser := wDN,
    validity := ⟨0, 1000⟩, subject := dnInit,
    subject_public_key := [9, 9], ocsp_url := [104, 105] }

set_option maxRecDepth 100000 in
theorem cert_model_roundtrip_witness :
    (∃ m, Validity.serialize ⟨0, 1000⟩ = .ok m ∧
      Validity.deserialize m = pok ⟨0, 1000⟩) ∧
    (∃ m, wDN.serialize = .ok m ∧ DistinguishedName.deserialize m = .ok wDN) ∧
    (∃ m, wTbs.serialize = .ok m ∧ TbsCertificate.deserialize m = pok wTbs) ∧
    (∃ m, Certificate.serialize ⟨wTbs, .falcon512, [1, 2, 3]⟩ = .ok m ∧
      Certificate.deserialize m = pok ⟨wTbs, .falcon512, [1, 2, 3]⟩) := by
  obtain ⟨p1, p2, p3, p4⟩ := cert_model_roundtrip
  refine ⟨p1 _ ?_, p2 wDN ?_, p3 wTbs ?_, p4 ⟨wTbs, .falcon512, [1, 2, 3]⟩ ?_⟩
  · simp only [validityWf]
    norm_num
  · simp only [dnWf, wDN, strOk, optStrOk]
    refine ⟨⟨by decide, by decide⟩, ⟨by decide, by decide⟩, ?_, ?_, ?_, ?_, ?_⟩ <;> trivial
  · simp only [tbsWf, wTbs, dnWf, wDN, validityWf, strOk, optStrOk, dnInit]
    refine ⟨by decide, ⟨⟨by decide, by decide⟩, ⟨by decide, by decide⟩,
      trivial, trivial, trivial, trivial, trivial⟩, by norm_num,
      ⟨⟨by decide, by decide⟩, trivial, trivial, trivial, trivial, trivial, trivial⟩,
      by decide, ⟨by decide, by decide⟩, by decide, by decide⟩
  · refine ⟨?_, by decide, by decide⟩
    simp only [certWf, tbsWf, wTbs, dnWf, wDN, validityWf, strOk, optStrOk, dnInit]
    refine ⟨by decide, ⟨⟨by decide, by decide⟩, ⟨by decide, by decide⟩,
      trivial, trivial, trivial, trivial, trivial⟩, by norm_num,
      ⟨⟨by decide, by decide⟩, trivial, trivial, trivial, trivial, trivial, trivial⟩,
      by decide, ⟨by decide, by decide⟩, by decide, by decide⟩

/-! Counterexample to the literal C1 (and machinery to evaluate `unpack` on
a payload of the form `concrete prefix ++ byte run ++ concrete suffix`). -/

theorem parseBlocks_cons (M off tag : Nat) (rest : List Nat) :
    parseBlocks M off (tag :: rest) =
      if rest.length + 1 < 5 then
        .error (.invalidPacketError (blockHeaderErr M))
      else if be4val rest > (rest.drop 4).length then
        .error (.invalidPacketError
          (blockLenErr (off + 5) (be4val rest) ((rest.drop 4).length)))
      else
        match parseBlocks M (off + 5 + be4val rest) ((rest.drop 4).drop (be4val rest)) with
        | .error e => .error e
        | .ok blocks => .ok ((tag, (rest.drop 4).take (be4val rest)) :: blocks) := by
  rw [parseBlocks]

theorem be4val_replicate97 (m : Nat) (h : 4 ≤ m) (B : List Nat) :
    be4val (List.replicate m 97 ++ B) = 1633771873 := by
  obtain ⟨k, rfl⟩ : ∃ k, m = 4 + k := ⟨m - 4, by omega⟩
  rw [List.replicate_add]
  rfl

theorem drop_replicate97_append (j m : Nat) (h : j ≤ m) (B : List Nat) :
    (List.replicate m (97 : Nat) ++ B).drop j = List.replicate (m - j) 97 ++ B := by
  rw [List.drop_append_eq_append_drop, List.drop_replicate, List.length_replicate,
    Nat.sub_eq_zero_of_le h, List.drop_zero]

/-- One scan step inside an all-`0x61` region: the bogus header reads tag
`0x61` and length `0x61616161`, and the scan hops that far forward. -/
theorem parse_rep_step (M off m : Nat) (B : List Nat) (e : StpcError)
    (hK : 1633771878 ≤ m)
    (hrec : parseBlocks M (off + 5 + 1633771873)
      (List.replicate (m - 5 - 1633771873) 97 ++ B) = .error e) :
    parseBlocks M off (List.replicate m 97 ++ B) = .error e := by
  obtain ⟨k, rfl⟩ : ∃ k, m = k + 1 := ⟨m - 1, by omega⟩
  rw [List.replicate_succ, List.cons_append, parseBlocks_cons]
  have hk4 : 4 ≤ k := by omega
  rw [if_neg (by simp only [List.length_append, List.length_replicate]; omega)]
  rw [be4val_replicate97 k hk4 B, drop_replicate97_append 4 k hk4 B]
  rw [if_neg (by simp only [List.length_append, List.length_replicate]; omega)]
  rw [drop_replicate97_append 1633771873 (k - 4) (by omega) B]
  have harith : k + 1 - 5 - 1633771873 = k - 4 - 1633771873 := by omega
  rw [harith] at hrec
  rw [hrec]

/-- The failing scan step: the bogus `0x61616161` length exceeds what
remains. -/
theorem parse_rep_fail (M off m : Nat) (B : List Nat)
    (h5 : 5 ≤ m) (hsmall : m - 5 + B.length < 1633771873) :
    parseBlocks M off (List.replicate m 97 ++ B) =
      .error (.invalidPacketError
        (blockLenErr (off + 5) 1633771873 (m - 5 + B.length))) := by
  obtain ⟨k, rfl⟩ : ∃ k, m = k + 1 := ⟨m - 1, by omega⟩
  rw [List.replicate_succ, List.cons_append, parseBlocks_cons]
  have hk4 : 4 ≤ k := by omega
  rw [if_neg (by simp only [List.length_append, List.length_replicate]; omega)]
  rw [be4val_replicate97 k hk4 B, drop_replicate97_append 4 k hk4 B]
  rw [if_pos (by simp only [List.length_append, List.length_replicate]; omega)]
  have harith : k - 4 + B.length = k + 1 - 5 + B.length := by omega
  rw [List.length_append, List.length_replicate, harith]

/-- A `u32`-maximal run of ASCII `a` bytes: the public key of the
counterexample certificate. -/
def aRun : List Nat := List.replicate (2 ^ 32 - 1) 97

/-- Counterexample TBS: every field satisfies the literal C1 hypotheses
(string fields valid UTF-8, byte fields shorter than `2^32`), yet its own
encoding is `2^32 + 117` bytes long, so the `as u32` length cast in
`Certificate::serialize` truncates it. -/
def cexTbs : TbsCertificate :=
  { version := .v1, serial_number := List.replicate 8 0,
    signature_algorithm := .ed25519, issuser := dnInit, validity := ⟨0, 0⟩,
    subject := dnInit, subject_public_key := aRun, ocsp_url := [] }

/-- Counterexample certificate wrapping `cexTbs`. -/
def cexCert : Certificate :=
  { tbs_certificate := cexTbs, signature_algorithm := .ed25519, signature_value := [] }

/-- Concrete bytes of the TBS payload before the public-key run (105 bytes: blocks 1-6 and the tag-7 header with its truncated-free length `0xFFFFFFFF`). -/
def cexD : List Nat :=
  [1, 0, 0, 0, 1, 1, 2, 0, 0, 0, 8, 0, 0, 0, 0, 0,
   0, 0, 0, 3, 0, 0, 0, 1, 1, 4, 0, 0, 0, 13, 0, 0,
   0, 0, 0, 0, 0, 5, 1, 0, 0, 0, 0, 5, 0, 0, 0, 34,
   0, 0, 0, 0, 0, 0, 0, 26, 1, 0, 0, 0, 8, 0, 0, 0,
   0, 0, 0, 0, 0, 2, 0, 0, 0, 8, 0, 0, 0, 0, 0, 0,
   0, 0, 6, 0, 0, 0, 13, 0, 0, 0, 0, 0, 0, 0, 5, 1,
   0, 0, 0, 0, 7, 255, 255, 255, 255]

/-- Concrete prefix of the certificate payload before the public-key run (118 bytes). -/
def cexPre : List Nat :=
  [1, 0, 0, 0, 117, 0, 0, 0, 1, 0, 0, 0, 109, 1, 0, 0,
   0, 1, 1, 2, 0, 0, 0, 8, 0, 0, 0, 0, 0, 0, 0, 0,
   3, 0, 0, 0, 1, 1, 4, 0, 0, 0, 13, 0, 0, 0, 0, 0,
   0, 0, 5, 1, 0, 0, 0, 0, 5, 0, 0, 0, 34, 0, 0, 0,
   0, 0, 0, 0, 26, 1, 0, 0, 0, 8, 0, 0, 0, 0, 0, 0,
   0, 0, 2, 0, 0, 0, 8, 0, 0, 0, 0, 0, 0, 0, 0, 6,
   0, 0, 0, 13, 0, 0, 0, 0, 0, 0, 0, 5, 1, 0, 0, 0,
   0, 7, 255, 255, 255, 255]

/-- `cexPre` without its leading tag byte (117 bytes). -/
def cexPre1 : List Nat :=
  [0, 0, 0, 117, 0, 0, 0, 1, 0, 0, 0, 109, 1, 0, 0, 0,
   1, 1, 2, 0, 0, 0, 8, 0, 0, 0, 0, 0, 0, 0, 0, 3,
   0, 0, 0, 1, 1, 4, 0, 0, 0, 13, 0, 0, 0, 0, 0, 0,
   0, 5, 1, 0, 0, 0, 0, 5, 0, 0, 0, 34, 0, 0, 0, 0,
   0, 0, 0, 26, 1, 0, 0, 0, 8, 0, 0, 0, 0, 0, 0, 0,
   0, 2, 0, 0, 0, 8, 0, 0, 0, 0, 0, 0, 0, 0, 6, 0,
   0, 0, 13, 0, 0, 0, 0, 0, 0, 0, 5, 1, 0, 0, 0, 0,
   7, 255, 255, 255, 255]

/-- `cexPre` without the 5-byte block-1 header (113 bytes). -/
def cexPre2 : List Nat :=
  [0, 0, 0, 1, 0, 0, 0, 109, 1, 0, 0, 0, 1, 1, 2, 0,
   0, 0, 8, 0, 0, 0, 0, 0, 0, 0, 0, 3, 0, 0, 0, 1,
   1, 4, 0, 0, 0, 13, 0, 0, 0, 0, 0, 0, 0, 5, 1, 0,
   0, 0, 0, 5, 0, 0, 0, 34, 0, 0, 0, 0, 0, 0, 0, 26,
   1, 0, 0, 0, 8, 0, 0, 0, 0, 0, 0, 0, 0, 2, 0, 0,
   0, 8, 0, 0, 0, 0, 0, 0, 0, 0, 6, 0, 0, 0, 13, 0,
   0, 0, 0, 0, 0, 0, 5, 1, 0, 0, 0, 0, 7, 255, 255, 255,
   255]

/-- Concrete suffix of the certificate payload after the public-key run (16 bytes: the tag-8 block and the certificate blocks 2 and 3). -/
def cexSuf : List Nat :=
  [8, 0, 0, 0, 0, 2, 0, 0, 0, 1, 1, 3, 0, 0, 0, 0]

theorem aRun_length : aRun.length = 4294967295 := by
  rw [aRun, List.length_replicate]
  norm_num

theorem cex_tbs_payload :
    packPayload (tbsBlocks cexTbs) = cexD ++ (aRun ++ [8, 0, 0, 0, 0]) := by
  have hE13 : encOf (dnBlocks dnInit) =
      [0, 0, 0, 0, 0, 0, 0, 5, 1, 0, 0, 0, 0] := by decide
  have hE34 : encOf (validityBlocks ⟨0, 0⟩) =
      [0, 0, 0, 0, 0, 0, 0, 26, 1, 0, 0, 0, 8, 0, 0, 0, 0, 0, 0, 0, 0,
       2, 0, 0, 0, 8, 0, 0, 0, 0, 0, 0, 0, 0] := by decide
  have hb0 : be4bytes 0 = [0, 0, 0, 0] := by decide
  have hb1 : be4bytes 1 = [0, 0, 0, 1] := by decide
  have hb8 : be4bytes 8 = [0, 0, 0, 8] := by decide
  have hb13 : be4bytes 13 = [0, 0, 0, 13] := by decide
  have hb34 : be4bytes 34 = [0, 0, 0, 34] := by decide
  have hbig : be4bytes 4294967295 = [255, 255, 255, 255] := by decide
  have hser : (List.replicate 8 (0 : Nat)) = [0, 0, 0, 0, 0, 0, 0, 0] := rfl
  simp only [tbsBlocks, cexTbs, packPayload, packBlock, List.map_cons,
    List.map_nil, List.flatten, hE13, hE34, List.length_cons, List.length_nil,
    List.length_replicate, aRun_length, hser, hb0, hb1, hb8, hb13, hb34, hbig, cexD]
  simp [versionCode, sigAlgCode]

theorem cex_tbs_payload_len :
    (packPayload (tbsBlocks cexTbs)).length = 4294967405 := by
  rw [cex_tbs_payload]
  rw [List.length_append, List.length_append, aRun_length]
  decide

theorem cex_payload :
    packPayload (certBlocks cexCert) = cexPre ++ (aRun ++ cexSuf) := by
  have htlen : (encOf (tbsBlocks cexTbs)).length = 4294967413 := by
    rw [encOf_length, cex_tbs_payload_len]
  have henc : encOf (tbsBlocks cexTbs) =
      [0, 0, 0, 1, 0, 0, 0, 109] ++ (cexD ++ (aRun ++ [8, 0, 0, 0, 0])) := by
    rw [encOf, cex_tbs_payload_len, cex_tbs_payload,
      show be8bytes 4294967405 = [0, 0, 0, 1, 0, 0, 0, 109] from by decide]
  have hblen : be4bytes 4294967413 = [0, 0, 0, 117] := by decide
  have hb0 : be4bytes 0 = [0, 0, 0, 0] := by decide
  have hb1 : be4bytes 1 = [0, 0, 0, 1] := by decide
  rw [show certBlocks cexCert =
    [(1, encOf (tbsBlocks cexTbs)), (2, [1]), (3, [])] from rfl]
  simp only [packPayload, List.map_cons, List.map_nil, List.flatten,
    packBlock, List.length_cons, List.length_nil, hb0, hb1]
  rw [htlen, hblen, henc]
  rw [List.cons_append, List.append_assoc, List.append_assoc, List.append_assoc,
    List.append_assoc]
  rw [show ([8, 0, 0, 0, 0] : List Nat) ++
      ((2 :: ([0, 0, 0, 1] ++ [1])) ++ ((3 :: ([0, 0, 0, 0] ++ [])) ++ [])) =
      cexSuf from by decide]
  rfl

theorem cex_payload_len :
    (packPayload (certBlocks cexCert)).length = 4294967429 := by
  rw [cex_payload]
  rw [List.length_append, List.length_append, aRun_length]
  decide

/-- Variant of `unpack_encOf` for a payload whose scan fails: the envelope
checks pass and the scan error surfaces. -/
theorem unpack_encOf_err (bs : List (Nat × List Nat))
    (htot : (packPayload bs).length < 2 ^ 64) (e : StpcError)
    (h : parseBlocks (encOf bs).length 0 (packPayload bs) = .error e) :
    unpack (encOf bs) = .error e := by
  have hmlen := encOf_length bs
  rw [unpack]
  have h8 : ¬ ((encOf bs).length < 8) := by rw [hmlen]; omega
  simp only [h8, if_false]
  rw [encOf]
  rw [be8val_be8bytes, Nat.mod_eq_of_lt htot]
  rw [← encOf]
  have h2 : ¬ ((encOf bs).length - 8 < (packPayload bs).length) := by
    rw [hmlen]; omega
  simp only [h2, if_false]
  have hdrop : (encOf bs).drop 8 = packPayload bs := by
    rw [encOf]
    have := List.drop_left (be8bytes (packPayload bs).length) (packPayload bs)
    rwa [be8bytes_length] at this
  rw [hdrop, List.take_length]
  exact h

theorem cex_parse (M : Nat) :
    parseBlocks M 0 (cexPre ++ (aRun ++ cexSuf)) =
      .error (.invalidPacketError (blockLenErr 3267543883 1633771873 1027423546)) := by
  rw [show cexPre ++ (aRun ++ cexSuf) = 1 :: (cexPre1 ++ (aRun ++ cexSuf)) from rfl]
  rw [parseBlocks_cons]
  have hlen1 : (cexPre1 ++ (aRun ++ cexSuf)).length = 4294967428 := by
    rw [List.length_append, List.length_append, aRun_length]
    decide
  rw [if_neg (by rw [hlen1]; omega)]
  have hbe : be4val (cexPre1 ++ (aRun ++ cexSuf)) = 117 := rfl
  have hdrop4 : (cexPre1 ++ (aRun ++ cexSuf)).drop 4 = cexPre2 ++ (aRun ++ cexSuf) := rfl
  rw [hbe, hdrop4]
  have hlen2 : (cexPre2 ++ (aRun ++ cexSuf)).length = 4294967424 := by
    rw [List.length_append, List.length_append, aRun_length]
    decide
  rw [if_neg (by rw [hlen2]; omega)]
  have hdrop117 : (cexPre2 ++ (aRun ++ cexSuf)).drop 117 =
      List.replicate 4294967291 97 ++ cexSuf := by
    rw [List.drop_append_eq_append_drop]
    have h1 : cexPre2.drop 117 = [] := by decide
    have h2 : 117 - cexPre2.length = 4 := by decide
    rw [h1, h2, List.nil_append, aRun, drop_replicate97_append 4 (2 ^ 32 - 1) (by norm_num) cexSuf]
    norm_num
  rw [hdrop117]
  have hfail := parse_rep_fail M 3267543878 1027423535 cexSuf (by norm_num)
    (by decide)
  rw [show (1027423535 : Nat) - 5 + cexSuf.length = 1027423546 from by decide,
    show (3267543878 : Nat) + 5 = 3267543883 from by norm_num] at hfail
  have hstep2 := parse_rep_step M 1633772000 2661195413 cexSuf _ (by norm_num) (by
    rw [show (2661195413 : Nat) - 5 - 1633771873 = 1027423535 from by norm_num,
      show (1633772000 : Nat) + 5 + 1633771873 = 3267543878 from by norm_num]
    exact hfail)
  have hstep1 := parse_rep_step M 122 4294967291 cexSuf _ (by norm_num) (by
    rw [show (4294967291 : Nat) - 5 - 1633771873 = 2661195413 from by norm_num,
      show (122 : Nat) + 5 + 1633771873 = 1633772000 from by norm_num]
    exact hstep2)
  rw [show (0 : Nat) + 5 + 117 = 122 from rfl, hstep1]

theorem cex_unpack :
    unpack (encOf (certBlocks cexCert)) =
      .error (.invalidPacketError (blockLenErr 3267543883 1633771873 1027423546)) := by
  apply unpack_encOf_err
  · rw [cex_payload_len]
    norm_num
  · rw [cex_payload]
    exact cex_parse _

/-- C1 counterexample: `cexCert` meets all the literal hypotheses of the
claim — its string fields are valid UTF-8 (all empty) and its byte fields
are shorter than `2^32` (the public key has exactly `2^32 - 1` bytes) — yet
`deserialize(serialize(cexCert))` does not return `cexCert`: the nested TBS
encoding is `2^32 + 117` bytes, `Certificate::serialize` writes its length
`mod 2^32` (117), and `unpack` then misparses the remainder and fails. -/
theorem roundtrip_counterexample :
    (utf8Valid cexTbs.issuser.common_name = true ∧
     utf8Valid cexTbs.subject.common_name = true ∧
     utf8Valid cexTbs.ocsp_url = true ∧
     cexTbs.serial_number.length = 8 ∧
     cexTbs.subject_public_key.length < 2 ^ 32 ∧
     cexCert.signature_value.length < 2 ^ 32) ∧
    Certificate.serialize cexCert = .ok (encOf (certBlocks cexCert)) ∧
    Certificate.deserialize (encOf (certBlocks cexCert)) =
      perr (.invalidPacketError (blockLenErr 3267543883 1633771873 1027423546)) ∧
    (∀ m, Certificate.serialize cexCert = .ok m →
      Certificate.deserialize m ≠ pok cexCert) := by
  have hdes : Certificate.deserialize (encOf (certBlocks cexCert)) =
      perr (.invalidPacketError (blockLenErr 3267543883 1633771873 1027423546)) := by
    rw [Certificate.deserialize, cex_unpack]
    rfl
  refine ⟨⟨rfl, rfl, rfl, rfl, ?_, by decide⟩, rfl, hdes, ?_⟩
  · show aRun.length < 2 ^ 32
    rw [aRun_length]
    norm_num
  · intro m hm
    rw [Certificate.serialize, pack_eq] at hm
    have hme : m = encOf (certBlocks cexCert) := (Except.ok.injEq _ _).mp hm |>.symm
    rw [hme, hdes]
    intro hcontra
    exact Except.noConfusion (Option.some.inj hcontra)


end Stpc
